import Mathlib

/-!
Verification of the HidFilterDriver pointer-input filter
(src/HidFilterDriver/trace.h) against its natural-language specification.

The driver code is shallowly embedded: C LONG/ULONG arithmetic becomes Int/Nat
arithmetic with explicit reductions modulo 2^32 where the C conversions matter,
and the 32-bit FLOAT arithmetic used by the smoothing algorithms is embedded
exactly as IEEE-754 binary32 round-to-nearest-even over the rationals
(every binary32 value is a rational, and each C float operation rounds the
exact rational result back to the binary32 grid).
-/

namespace HidFilter

/-! ### IEEE-754 binary32 model over the rationals -/

/-- Fueled helper computing the position of the leading binary digit. -/
def bitLenAux : Nat → Nat → Nat
  | 0, _ => 0
  | fuel + 1, n => if n ≤ 1 then 0 else bitLenAux fuel (n / 2) + 1

/-- For n ≥ 1, the unique p with 2^p ≤ n < 2^(p+1). -/
def bitLen (n : Nat) : Nat := bitLenAux n n

/-- Round a rational to the nearest integer, ties to even
(the IEEE-754 default rounding of a mantissa). -/
def rndInt (m : ℚ) : ℤ :=
  let f := ⌊m⌋
  let r := m - f
  if r < 1/2 then f
  else if 1/2 < r then f + 1
  else if f % 2 = 0 then f else f + 1

/-- The binary exponent of a nonzero rational: the unique e with
2^e ≤ |q| < 2^(e+1), computed from the bit lengths of numerator and
denominator. -/
def qexp (q : ℚ) : ℤ :=
  let e0 : ℤ := (bitLen q.num.natAbs : ℤ) - (bitLen q.den : ℤ)
  if |q| < (2:ℚ) ^ e0 then e0 - 1
  else if (2:ℚ) ^ (e0 + 1) ≤ |q| then e0 + 1
  else e0

/-- IEEE-754 binary32 rounding (round to nearest, ties to even) of an exact
rational: normal numbers keep a 24-bit mantissa, magnitudes below 2^(-126)
round on the fixed subnormal grid 2^(-149).  Overflow to infinity never occurs
for the magnitudes this driver computes and is not modelled. -/
def roundF32 (q : ℚ) : ℚ :=
  if q = 0 then 0
  else
    let e := qexp q
    let s : ℚ := if e < -126 then (2:ℚ) ^ (-149 : ℤ) else (2:ℚ) ^ (e - 23)
    let n := rndInt (|q| / s)
    (if q < 0 then -1 else 1) * (n : ℚ) * s

/-- Truncation toward zero, the semantics of a C cast from FLOAT to LONG. -/
def rtrunc (q : ℚ) : ℤ :=
  if 0 ≤ q then ⌊q⌋ else ⌈q⌉

/-- Clamp to the CHAR range, as done by max(-128, min(127, v)) in the code. -/
def clampChar (v : ℤ) : ℤ :=
  max (-128) (min 127 v)


/-! ### Data model of the driver (trace.h)

MOUSE_REPORT is the packed 4-byte HID pointer report; FILTER_EXTENSION is the
per-device context created by HidFilterDriverDeviceAdd.  The C LONG fields
become Int, ULONG HistoryIndex becomes Nat, the two LONG[10] arrays become
length-10 lists. -/

/-- The 4-byte HID mouse report: unsigned Buttons byte, signed X, Y, Wheel. -/
structure MOUSE_REPORT where
  Buttons : ℕ
  X : ℤ
  Y : ℤ
  Wheel : ℤ
deriving DecidableEq

/-- The per-device filter context FILTER_EXTENSION (WDF handles omitted:
they carry no data the claims are about). -/
structure FILTER_EXTENSION where
  FilterActive : Bool
  SmoothingFactor : ℤ
  ResponseSpeed : ℤ
  FilteringStrength : ℤ
  LastXPosition : ℤ
  LastYPosition : ℤ
  LastXOutput : ℤ
  LastYOutput : ℤ
  XHistory : List ℤ
  YHistory : List ℤ
  HistoryIndex : ℕ
  HistoryInitialized : Bool
deriving DecidableEq

def HISTORY_SIZE : ℕ := 10

/-- The context as initialized by HidFilterDriverDeviceAdd: the WDF context is
zero-initialized, then FilterActive=FALSE, the three tunables are set to 50,
HistoryInitialized=FALSE, HistoryIndex=0. -/
def deviceAddInit : FILTER_EXTENSION where
  FilterActive := false
  SmoothingFactor := 50
  ResponseSpeed := 50
  FilteringStrength := 50
  LastXPosition := 0
  LastYPosition := 0
  LastXOutput := 0
  LastYOutput := 0
  XHistory := List.replicate 10 0
  YHistory := List.replicate 10 0
  HistoryIndex := 0
  HistoryInitialized := false

/-! ### The three filtering algorithms -/

/-- Conversion of a C integer to FLOAT (rounds when the integer has more than
24 significant bits; exact for the small values this driver handles). -/
def i2f (n : ℤ) : ℚ := roundF32 ((n : ℚ))

/-- The blend both Exponential and Adaptive use, operation by operation:
(LONG)(*X * alpha + LastOutput * (1.0f - alpha)) before the cast;
every FLOAT operation rounds. -/
def blendF32 (alpha : ℚ) (inp lastOut : ℤ) : ℚ :=
  roundF32 (roundF32 (i2f inp * alpha) +
    roundF32 (i2f lastOut * roundF32 (1 - alpha)))

/-- alpha of ApplyExponentialSmoothing:
alpha = (FLOAT)(100 - SmoothingFactor) / 100.0f; alpha = max(0.01f, min(1.0f, alpha)). -/
def alphaExpo (s : ℤ) : ℚ :=
  max (roundF32 (1/100)) (min 1 (roundF32 (i2f (100 - s) / 100)))

/-- ApplyExponentialSmoothing from trace.h: blend with alphaExpo, cast to LONG,
clamp to the CHAR range, store as LastXOutput/LastYOutput and write back. -/
def ApplyExponentialSmoothing (ext : FILTER_EXTENSION) (x y : ℤ) :
    FILTER_EXTENSION × ℤ × ℤ :=
  let alpha := alphaExpo ext.SmoothingFactor
  let newX := clampChar (rtrunc (blendF32 alpha x ext.LastXOutput))
  let newY := clampChar (rtrunc (blendF32 alpha y ext.LastYOutput))
  ({ ext with LastXOutput := newX, LastYOutput := newY }, newX, newY)

/-- C conversion LONG → ULONG (reduction mod 2^32). -/
def asULONG (n : ℤ) : ℕ := (Int.emod n (2^32)).toNat

/-- C conversion ULONG → LONG (wrap of the 32-bit pattern). -/
def asLONG (n : ℕ) : ℤ := if n < 2^31 then (n : ℤ) else (n : ℤ) - 2^32

/-- ApplyMovingAverage from trace.h.  windowSize is a ULONG; the division
sumX / windowSize mixes a LONG sum with the ULONG windowSize, so C converts
the sum to unsigned first — reproduced here by asULONG/asLONG. -/
def ApplyMovingAverage (ext : FILTER_EXTENSION) (x y : ℤ) :
    FILTER_EXTENSION × ℤ × ℤ :=
  let windowSize : ℕ :=
    min (asULONG (3 + Int.tdiv (ext.FilteringStrength * 7) 100)) HISTORY_SIZE
  let idx : ℕ → ℕ := fun i => (ext.HistoryIndex + HISTORY_SIZE - 1 - i) % HISTORY_SIZE
  let sumX : ℤ :=
    (List.range windowSize).foldl (fun acc i => acc + ext.XHistory.getD (idx i) 0) 0
  let sumY : ℤ :=
    (List.range windowSize).foldl (fun acc i => acc + ext.YHistory.getD (idx i) 0) 0
  let avgX := clampChar (asLONG (asULONG sumX / windowSize))
  let avgY := clampChar (asLONG (asULONG sumY / windowSize))
  ({ ext with LastXOutput := avgX, LastYOutput := avgY }, avgX, avgY)

/-- alpha of ApplyAdaptiveFiltering:
baseAlpha = (FLOAT)ResponseSpeed / 100.0f;
velocityFactor = min(1.0f, (FLOAT)velocity / 20.0f);
alpha = baseAlpha + (1.0f - baseAlpha) * velocityFactor;
alpha = max(0.1f, min(0.9f, alpha)). -/
def alphaAdaptive (responseSpeed velocity : ℤ) : ℚ :=
  let baseAlpha := roundF32 (i2f responseSpeed / 100)
  let velocityFactor := min 1 (roundF32 (i2f velocity / 20))
  let alpha := roundF32 (baseAlpha + roundF32 (roundF32 (1 - baseAlpha) * velocityFactor))
  max (roundF32 (1/10)) (min (roundF32 (9/10)) alpha)

/-- ApplyAdaptiveFiltering from trace.h: velocity = abs X + abs Y, then the
same blend/cast/clamp/store as the exponential algorithm with alphaAdaptive. -/
def ApplyAdaptiveFiltering (ext : FILTER_EXTENSION) (x y : ℤ) :
    FILTER_EXTENSION × ℤ × ℤ :=
  let velocity := |x| + |y|
  let alpha := alphaAdaptive ext.ResponseSpeed velocity
  let newX := clampChar (rtrunc (blendF32 alpha x ext.LastXOutput))
  let newY := clampChar (rtrunc (blendF32 alpha y ext.LastYOutput))
  ({ ext with LastXOutput := newX, LastYOutput := newY }, newX, newY)

/-! ### ProcessMouseInput -/

/-- The history phase of ProcessMouseInput: zero-fill on first use, store the
raw report X/Y at HistoryIndex, advance the index modulo HISTORY_SIZE. -/
def storeHistory (ext : FILTER_EXTENSION) (x y : ℤ) : FILTER_EXTENSION :=
  let e1 := if ext.HistoryInitialized then ext
    else { ext with XHistory := List.replicate 10 0, YHistory := List.replicate 10 0,
                    HistoryInitialized := true }
  { e1 with XHistory := e1.XHistory.set e1.HistoryIndex x,
            YHistory := e1.YHistory.set e1.HistoryIndex y,
            HistoryIndex := (e1.HistoryIndex + 1) % HISTORY_SIZE }

/-- The algorithm-selection phase of ProcessMouseInput. -/
def selectAndApply (ext : FILTER_EXTENSION) (x y : ℤ) : FILTER_EXTENSION × ℤ × ℤ :=
  if 75 < ext.SmoothingFactor then ApplyExponentialSmoothing ext x y
  else if 25 < ext.SmoothingFactor then ApplyMovingAverage ext x y
  else ApplyAdaptiveFiltering ext x y

/-- ProcessMouseInput from trace.h: early return when the filter is inactive;
otherwise history update, algorithm dispatch on SmoothingFactor, write-back of
the filtered X/Y into the report and into LastXPosition/LastYPosition. -/
def ProcessMouseInput (ext : FILTER_EXTENSION) (rep : MOUSE_REPORT) :
    FILTER_EXTENSION × MOUSE_REPORT :=
  if !ext.FilterActive then (ext, rep)
  else
    let e1 := storeHistory ext rep.X rep.Y
    let r := selectAndApply e1 rep.X rep.Y
    ({ r.1 with LastXPosition := r.2.1, LastYPosition := r.2.2 },
     { rep with X := r.2.1, Y := r.2.2 })

/-! ### Report codec

The write-report input buffer is a byte sequence; a MOUSE_REPORT view exists
only when at least sizeof(MOUSE_REPORT) = 4 bytes are present.  The signed
CHAR fields use two's-complement bytes. -/

def toSigned (b : ℕ) : ℤ := if b < 128 then (b : ℤ) else (b : ℤ) - 256

def toByte (i : ℤ) : ℕ := (Int.emod i 256).toNat

def decodeReport (buf : List ℕ) : MOUSE_REPORT where
  Buttons := buf.getD 0 0
  X := toSigned (buf.getD 1 0)
  Y := toSigned (buf.getD 2 0)
  Wheel := toSigned (buf.getD 3 0)

/-- Write-back through the MOUSE_REPORT view: ProcessMouseInput only assigns
Report->X and Report->Y, so only bytes 1 and 2 of the buffer change. -/
def encodeReport (buf : List ℕ) (r : MOUSE_REPORT) : List ℕ :=
  (buf.set 1 (toByte r.X)).set 2 (toByte r.Y)

/-! ### Report-path dispatcher (HidFilterDriverIoInternalDeviceControl) -/

inductive HidIoctl
  | readReport
  | writeReport
  | otherCode
deriving DecidableEq

/-- HidFilterDriverIoInternalDeviceControl, success path: read-reports and
unknown codes are forwarded untouched; write-reports are filtered in place
when the filter is active and the buffer holds a whole MOUSE_REPORT, then
forwarded.  Returns the device state and the forwarded buffer. -/
def HidFilterDriverIoInternalDeviceControl (ext : FILTER_EXTENSION)
    (code : HidIoctl) (buf : List ℕ) : FILTER_EXTENSION × List ℕ :=
  match code with
  | .readReport => (ext, buf)
  | .otherCode => (ext, buf)
  | .writeReport =>
    if ext.FilterActive then
      if 4 ≤ buf.length then
        let r := ProcessMouseInput ext (decodeReport buf)
        (r.1, encodeReport buf r.2)
      else (ext, buf)
    else (ext, buf)

/-! ### Control-surface dispatcher (HidFilterDriverIoDeviceControl) -/

inductive NTStatus
  | success
  | bufferTooSmall
  | invalidParameter
deriving DecidableEq

inductive CtlCode
  | setActive
  | setSmoothing
  | setResponse
  | setFiltering
  | getParameters
  | unknownCode
deriving DecidableEq

/-- The HIDFILTER_PARAMETERS struct returned by IOCTL_HIDFILTER_GET_PARAMETERS. -/
structure HIDFILTER_PARAMETERS where
  FilterActive : Bool
  SmoothingFactor : ℤ
  ResponseSpeed : ℤ
  FilteringStrength : ℤ
deriving DecidableEq

/-- Request completions and forwards performed by one dispatcher invocation;
requests are identified by a number. -/
inductive Action
  | completeReq (reqId : ℕ) (st : NTStatus)
  | forwardReq (reqId : ℕ)
deriving DecidableEq

def sizeofBOOLEAN : ℕ := 1
def sizeofLONG : ℕ := 4
def sizeofPARAMETERS : ℕ := 16

/-- HidFilterDriverIoDeviceControl, success path of the WDF calls.  Inputs:
the pending manual queue (list of request ids, FIFO), the id of the incoming
request, its control code, input/output buffer lengths and the decoded
payload (a BOOLEAN for SET_ACTIVE, a LONG for the three tunables).  Returns
the new device state, the new pending queue, the actions performed, and the
parameter struct written for GET_PARAMETERS. -/
def HidFilterDriverIoDeviceControl (ext : FILTER_EXTENSION) (pending : List ℕ)
    (reqId : ℕ) (code : CtlCode) (inLen outLen : ℕ) (boolIn : Bool) (longIn : ℤ) :
    FILTER_EXTENSION × List ℕ × List Action × Option HIDFILTER_PARAMETERS :=
  match code with
  | .setActive =>
    if inLen < sizeofBOOLEAN then
      (ext, pending, [.completeReq reqId .bufferTooSmall], none)
    else
      ({ ext with FilterActive := boolIn }, pending,
       [.completeReq reqId .success], none)
  | .setSmoothing =>
    if inLen < sizeofLONG then
      (ext, pending, [.completeReq reqId .bufferTooSmall], none)
    else if 0 ≤ longIn ∧ longIn ≤ 100 then
      ({ ext with SmoothingFactor := longIn }, pending,
       [.completeReq reqId .success], none)
    else
      (ext, pending, [.completeReq reqId .invalidParameter], none)
  | .setResponse =>
    if inLen < sizeofLONG then
      (ext, pending, [.completeReq reqId .bufferTooSmall], none)
    else if 0 ≤ longIn ∧ longIn ≤ 100 then
      ({ ext with ResponseSpeed := longIn }, pending,
       [.completeReq reqId .success], none)
    else
      (ext, pending, [.completeReq reqId .invalidParameter], none)
  | .setFiltering =>
    if inLen < sizeofLONG then
      (ext, pending, [.completeReq reqId .bufferTooSmall], none)
    else if 0 ≤ longIn ∧ longIn ≤ 100 then
      ({ ext with FilteringStrength := longIn }, pending,
       [.completeReq reqId .success], none)
    else
      (ext, pending, [.completeReq reqId .invalidParameter], none)
  | .getParameters =>
    if outLen < sizeofPARAMETERS then
      (ext, pending, [.completeReq reqId .bufferTooSmall], none)
    else
      (ext, pending, [.completeReq reqId .success],
       some ⟨ext.FilterActive, ext.SmoothingFactor, ext.ResponseSpeed,
             ext.FilteringStrength⟩)
  | .unknownCode =>
    let queued := pending ++ [reqId]
    ((ext : FILTER_EXTENSION), queued.tail,
     [.forwardReq (queued.headD 0)], none)

/-- Whether an action completes or forwards the given request. -/
def touches (reqId : ℕ) : Action → Bool
  | .completeReq i _ => i = reqId
  | .forwardReq i => i = reqId

/-! ### Specification-side formulas (from spec.md §4.5, real arithmetic) -/

/-- Spec formula: alpha = clamp((100 − smoothingFactor)/100, 0.01, 1.0). -/
def alphaExpoSpec (s : ℤ) : ℚ :=
  max (1/100) (min 1 (((100 - s : ℤ) : ℚ) / 100))

/-- Spec formula: output = alpha·input + (1−alpha)·lastOutput. -/
def blendSpec (alpha : ℚ) (inp lastOut : ℤ) : ℚ :=
  alpha * (inp : ℚ) + (1 - alpha) * (lastOut : ℚ)

/-- Spec formula: alpha = clamp(baseAlpha + (1−baseAlpha)·velocityFactor, 0.1, 0.9)
with baseAlpha = responseSpeed/100 and velocityFactor = clamp(velocity/20, 0, 1). -/
def alphaAdaptiveSpec (r v : ℤ) : ℚ :=
  max (1/10) (min (9/10) ((r : ℚ)/100 + (1 - (r : ℚ)/100) * min 1 ((v : ℚ)/20)))

/-- The device state right after enabling the filter on a fresh device. -/
def activeInit : FILTER_EXTENSION := { deviceAddInit with FilterActive := true }

/-- A sequence of write-reports applied to the device state (the state
component of repeated ProcessMouseInput calls). -/
def writeSeq (ext : FILTER_EXTENSION) (ps : List (ℤ × ℤ)) : FILTER_EXTENSION :=
  ps.foldl (fun e p => (ProcessMouseInput e ⟨0, p.1, p.2, 0⟩).1) ext

/-! ### Correctness of the rounding model -/

theorem bitLenAux_spec (fuel : Nat) : ∀ n : Nat, 1 ≤ n → n ≤ fuel →
    2 ^ bitLenAux fuel n ≤ n ∧ n < 2 ^ (bitLenAux fuel n + 1) := by
  induction fuel with
  | zero => intro n h1 h2; omega
  | succ fuel ih =>
    intro n h1 h2
    by_cases hn : n ≤ 1
    · have : n = 1 := by omega
      subst this
      simp [bitLenAux]
    · have h2' : n / 2 ≤ fuel := by omega
      have h1' : 1 ≤ n / 2 := by omega
      obtain ⟨hlo, hhi⟩ := ih (n / 2) h1' h2'
      have hstep : bitLenAux (fuel + 1) n = bitLenAux fuel (n / 2) + 1 := by
        simp [bitLenAux, hn]
      constructor
      · rw [hstep, pow_succ]
        omega
      · rw [hstep]
        have hstep2 : n < 2 * (n / 2) + 2 := by omega
        calc n < 2 * (n / 2) + 2 := hstep2
          _ ≤ 2 * 2 ^ (bitLenAux fuel (n / 2) + 1) := by omega
          _ = 2 ^ (bitLenAux fuel (n / 2) + 1 + 1) := by ring

theorem bitLen_spec (n : Nat) (h : 1 ≤ n) :
    2 ^ bitLen n ≤ n ∧ n < 2 ^ (bitLen n + 1) :=
  bitLenAux_spec n n h le_rfl

theorem abs_eq_natAbs_div_den (q : ℚ) :
    |q| = ((q.num.natAbs : ℚ)) / ((q.den : ℚ)) := by
  have hden : (0:ℚ) < (q.den : ℚ) := by exact_mod_cast q.pos
  conv_lhs => rw [← Rat.num_div_den q]
  rw [abs_div]
  congr 1
  · rw [Int.cast_natAbs, Int.cast_abs]
  · exact abs_of_pos hden

theorem qexp_spec (q : ℚ) (hq : q ≠ 0) :
    (2:ℚ) ^ qexp q ≤ |q| ∧ |q| < (2:ℚ) ^ (qexp q + 1) := by
  have hnum : 1 ≤ q.num.natAbs := by
    have := Rat.num_ne_zero.mpr hq
    omega
  have hden : 1 ≤ q.den := q.pos
  obtain ⟨hn1, hn2⟩ := bitLen_spec _ hnum
  obtain ⟨hd1, hd2⟩ := bitLen_spec _ hden
  set p : ℤ := (bitLen q.num.natAbs : ℤ) with hp
  set pd : ℤ := (bitLen q.den : ℤ) with hpd
  set e0 : ℤ := p - pd with he0
  have habs : |q| = ((q.num.natAbs : ℚ)) / ((q.den : ℚ)) := abs_eq_natAbs_div_den q
  have hdpos : (0:ℚ) < (q.den : ℚ) := by exact_mod_cast q.pos
  have h2ne : (2:ℚ) ≠ 0 := by norm_num
  have hnum' : (2:ℚ) ^ p ≤ (q.num.natAbs : ℚ) := by
    rw [hp, zpow_natCast]
    exact_mod_cast hn1
  have hnum'' : ((q.num.natAbs : ℚ)) < (2:ℚ) ^ (p + 1) := by
    rw [hp, show ((bitLen q.num.natAbs : ℤ) + 1) = ((bitLen q.num.natAbs + 1 : ℕ) : ℤ) by
      push_cast; ring, zpow_natCast]
    exact_mod_cast hn2
  have hden' : (2:ℚ) ^ pd ≤ ((q.den : ℚ)) := by
    rw [hpd, zpow_natCast]
    exact_mod_cast hd1
  have hden'' : ((q.den : ℚ)) < (2:ℚ) ^ (pd + 1) := by
    rw [hpd, show ((bitLen q.den : ℤ) + 1) = ((bitLen q.den + 1 : ℕ) : ℤ) by
      push_cast; ring, zpow_natCast]
    exact_mod_cast hd2
  have hlow : (2:ℚ) ^ (e0 - 1) < |q| := by
    rw [habs, lt_div_iff₀ hdpos]
    calc (2:ℚ) ^ (e0 - 1) * (q.den : ℚ)
        < (2:ℚ) ^ (e0 - 1) * (2:ℚ) ^ (pd + 1) := by
          exact mul_lt_mul_of_pos_left hden'' (by positivity)
      _ = (2:ℚ) ^ p := by
          rw [← zpow_add₀ h2ne]; congr 1; rw [he0]; ring
      _ ≤ (q.num.natAbs : ℚ) := hnum'
  have hhigh : |q| < (2:ℚ) ^ (e0 + 1) := by
    rw [habs, div_lt_iff₀ hdpos]
    calc ((q.num.natAbs : ℚ)) < (2:ℚ) ^ (p + 1) := hnum''
      _ = (2:ℚ) ^ (e0 + 1) * (2:ℚ) ^ pd := by
          rw [← zpow_add₀ h2ne]; congr 1; rw [he0]; ring
      _ ≤ (2:ℚ) ^ (e0 + 1) * (q.den : ℚ) := by
          exact mul_le_mul_of_nonneg_left hden' (by positivity)
  have hdef : qexp q = if |q| < (2:ℚ) ^ e0 then e0 - 1
      else if (2:ℚ) ^ (e0 + 1) ≤ |q| then e0 + 1 else e0 := rfl
  rw [hdef]
  split_ifs with hc1 hc2
  · refine ⟨hlow.le, ?_⟩
    rw [show e0 - 1 + 1 = e0 by ring]
    exact hc1
  · exact absurd hc2 (not_le.mpr hhigh)
  · exact ⟨not_lt.mp hc1, hhigh⟩

theorem abs_rndInt_sub_le (m : ℚ) : |(rndInt m : ℚ) - m| ≤ 1/2 := by
  have h1 : (⌊m⌋ : ℚ) ≤ m := Int.floor_le m
  have h2 : m < ⌊m⌋ + 1 := Int.lt_floor_add_one m
  unfold rndInt
  simp only
  split_ifs with ha hb hc
  · rw [abs_le]; constructor <;> linarith
  · rw [abs_le]; push_cast; constructor <;> linarith
  · rw [abs_le]; constructor <;> linarith
  · rw [abs_le]; push_cast
    have heq : m - ⌊m⌋ = 1/2 := le_antisymm (not_lt.mp hb) (not_lt.mp ha)
    constructor <;> linarith

theorem rndInt_nonneg (m : ℚ) (h : 0 ≤ m) : 0 ≤ rndInt m := by
  have hf : (0:ℤ) ≤ ⌊m⌋ := Int.floor_nonneg.mpr h
  unfold rndInt
  simp only
  split_ifs <;> omega

theorem roundF32_err (q : ℚ) :
    |roundF32 q - q| ≤ |q| / 2 ^ 24 + (2:ℚ) ^ (-150 : ℤ) := by
  by_cases hq : q = 0
  · subst hq
    simp [roundF32]
    positivity
  · unfold roundF32
    rw [if_neg hq]
    simp only
    set e := qexp q with he
    set s : ℚ := if e < -126 then (2:ℚ) ^ (-149 : ℤ) else (2:ℚ) ^ (e - 23) with hs
    have hspos : 0 < s := by
      rw [hs]; split_ifs <;> positivity
    set n := rndInt (|q| / s) with hn
    have key : |(if q < 0 then (-1:ℚ) else 1) * (n:ℚ) * s - q| = abs ((n:ℚ) * s - |q|) := by
      rcases lt_trichotomy q 0 with h | h | h
      · rw [if_pos h, abs_of_neg h,
          show (-1:ℚ) * (n:ℚ) * s - q = -((n:ℚ) * s - -q) by ring, abs_neg]
      · exact absurd h hq
      · rw [if_neg (not_lt.mpr h.le), abs_of_pos h, one_mul]
    rw [key]
    have herr : abs ((n:ℚ) * s - |q|) ≤ s / 2 := by
      have hb := abs_rndInt_sub_le (|q| / s)
      have heq : (n:ℚ) * s - |q| = ((n:ℚ) - |q| / s) * s := by
        rw [sub_mul, div_mul_cancel₀ _ (ne_of_gt hspos)]
      rw [heq, abs_mul, abs_of_pos hspos]
      calc |(n:ℚ) - |q| / s| * s ≤ (1/2) * s :=
            mul_le_mul_of_nonneg_right hb hspos.le
        _ = s / 2 := by ring
    refine herr.trans ?_
    rw [hs]
    have h150 : (0:ℚ) < (2:ℚ) ^ (-150 : ℤ) := by positivity
    have habsq : (0:ℚ) ≤ |q| / 2 ^ 24 := by positivity
    split_ifs with hsub
    · have heq2 : (2:ℚ) ^ (-149 : ℤ) / 2 = (2:ℚ) ^ (-150 : ℤ) := by
        rw [show (-150 : ℤ) = -149 - 1 by ring,
          zpow_sub₀ (by norm_num : (2:ℚ) ≠ 0)]
        norm_num
      rw [heq2]
      linarith
    · have hlow : (2:ℚ) ^ e ≤ |q| := (qexp_spec q hq).1
      have heq2 : (2:ℚ) ^ (e - 23) / 2 = (2:ℚ) ^ e / 2 ^ 24 := by
        rw [zpow_sub₀ (by norm_num : (2:ℚ) ≠ 0)]
        rw [div_div]
        norm_num
      rw [heq2]
      have hmono : (2:ℚ) ^ e / 2 ^ 24 ≤ |q| / 2 ^ 24 := by gcongr
      linarith

theorem roundF32_zero : roundF32 0 = 0 := by
  simp [roundF32]

theorem roundF32_nonneg (q : ℚ) (h : 0 ≤ q) : 0 ≤ roundF32 q := by
  rcases eq_or_lt_of_le h with h0 | hpos
  · rw [← h0, roundF32_zero]
  · unfold roundF32
    rw [if_neg (ne_of_gt hpos), if_neg (not_lt.mpr hpos.le)]
    simp only [one_mul]
    set e := qexp q
    set s : ℚ := if e < -126 then (2:ℚ) ^ (-149 : ℤ) else (2:ℚ) ^ (e - 23) with hs
    have hspos : 0 < s := by
      rw [hs]; split_ifs <;> positivity
    have hm : (0:ℚ) ≤ |q| / s := by positivity
    have hnn : (0:ℤ) ≤ rndInt (|q| / s) := rndInt_nonneg _ hm
    have : (0:ℚ) ≤ (rndInt (|q| / s) : ℚ) := by exact_mod_cast hnn
    exact mul_nonneg this hspos.le

/-! ### Projection lemmas for the state transformers -/

@[simp] lemma storeHistory_FilterActive (e : FILTER_EXTENSION) (x y : ℤ) :
    (storeHistory e x y).FilterActive = e.FilterActive := by
  unfold storeHistory; split <;> rfl

@[simp] lemma storeHistory_SmoothingFactor (e : FILTER_EXTENSION) (x y : ℤ) :
    (storeHistory e x y).SmoothingFactor = e.SmoothingFactor := by
  unfold storeHistory; split <;> rfl

@[simp] lemma storeHistory_ResponseSpeed (e : FILTER_EXTENSION) (x y : ℤ) :
    (storeHistory e x y).ResponseSpeed = e.ResponseSpeed := by
  unfold storeHistory; split <;> rfl

@[simp] lemma storeHistory_FilteringStrength (e : FILTER_EXTENSION) (x y : ℤ) :
    (storeHistory e x y).FilteringStrength = e.FilteringStrength := by
  unfold storeHistory; split <;> rfl

@[simp] lemma storeHistory_LastXOutput (e : FILTER_EXTENSION) (x y : ℤ) :
    (storeHistory e x y).LastXOutput = e.LastXOutput := by
  unfold storeHistory; split <;> rfl

@[simp] lemma storeHistory_LastYOutput (e : FILTER_EXTENSION) (x y : ℤ) :
    (storeHistory e x y).LastYOutput = e.LastYOutput := by
  unfold storeHistory; split <;> rfl

@[simp] lemma storeHistory_HistoryInitialized (e : FILTER_EXTENSION) (x y : ℤ) :
    (storeHistory e x y).HistoryInitialized = true := by
  unfold storeHistory; split <;> simp_all

@[simp] lemma storeHistory_HistoryIndex (e : FILTER_EXTENSION) (x y : ℤ) :
    (storeHistory e x y).HistoryIndex = (e.HistoryIndex + 1) % HISTORY_SIZE := by
  unfold storeHistory; split <;> rfl

@[simp] lemma storeHistory_XHistory (e : FILTER_EXTENSION) (x y : ℤ) :
    (storeHistory e x y).XHistory =
      (if e.HistoryInitialized then e.XHistory else List.replicate 10 0).set e.HistoryIndex x := by
  unfold storeHistory; by_cases h : e.HistoryInitialized <;> simp [h]

@[simp] lemma storeHistory_YHistory (e : FILTER_EXTENSION) (x y : ℤ) :
    (storeHistory e x y).YHistory =
      (if e.HistoryInitialized then e.YHistory else List.replicate 10 0).set e.HistoryIndex y := by
  unfold storeHistory; by_cases h : e.HistoryInitialized <;> simp [h]

lemma selectAndApply_XHistory (e : FILTER_EXTENSION) (x y : ℤ) :
    (selectAndApply e x y).1.XHistory = e.XHistory := by
  unfold selectAndApply ApplyExponentialSmoothing ApplyMovingAverage ApplyAdaptiveFiltering
  split_ifs <;> rfl

lemma selectAndApply_YHistory (e : FILTER_EXTENSION) (x y : ℤ) :
    (selectAndApply e x y).1.YHistory = e.YHistory := by
  unfold selectAndApply ApplyExponentialSmoothing ApplyMovingAverage ApplyAdaptiveFiltering
  split_ifs <;> rfl

lemma selectAndApply_HistoryIndex (e : FILTER_EXTENSION) (x y : ℤ) :
    (selectAndApply e x y).1.HistoryIndex = e.HistoryIndex := by
  unfold selectAndApply ApplyExponentialSmoothing ApplyMovingAverage ApplyAdaptiveFiltering
  split_ifs <;> rfl

lemma selectAndApply_HistoryInitialized (e : FILTER_EXTENSION) (x y : ℤ) :
    (selectAndApply e x y).1.HistoryInitialized = e.HistoryInitialized := by
  unfold selectAndApply ApplyExponentialSmoothing ApplyMovingAverage ApplyAdaptiveFiltering
  split_ifs <;> rfl

lemma selectAndApply_FilterActive (e : FILTER_EXTENSION) (x y : ℤ) :
    (selectAndApply e x y).1.FilterActive = e.FilterActive := by
  unfold selectAndApply ApplyExponentialSmoothing ApplyMovingAverage ApplyAdaptiveFiltering
  split_ifs <;> rfl

lemma selectAndApply_SmoothingFactor (e : FILTER_EXTENSION) (x y : ℤ) :
    (selectAndApply e x y).1.SmoothingFactor = e.SmoothingFactor := by
  unfold selectAndApply ApplyExponentialSmoothing ApplyMovingAverage ApplyAdaptiveFiltering
  split_ifs <;> rfl

lemma ProcessMouseInput_active_state (e : FILTER_EXTENSION) (rep : MOUSE_REPORT)
    (h : e.FilterActive = true) :
    (ProcessMouseInput e rep).1 =
      { (selectAndApply (storeHistory e rep.X rep.Y) rep.X rep.Y).1 with
        LastXPosition := (selectAndApply (storeHistory e rep.X rep.Y) rep.X rep.Y).2.1,
        LastYPosition := (selectAndApply (storeHistory e rep.X rep.Y) rep.X rep.Y).2.2 } := by
  unfold ProcessMouseInput
  rw [h]
  rfl


lemma PMI_FilterActive (e : FILTER_EXTENSION) (r : MOUSE_REPORT) :
    (ProcessMouseInput e r).1.FilterActive = e.FilterActive := by
  unfold ProcessMouseInput
  split
  · rfl
  · simp [selectAndApply_FilterActive]

lemma PMI_active_HistoryIndex (e : FILTER_EXTENSION) (r : MOUSE_REPORT)
    (h : e.FilterActive = true) :
    (ProcessMouseInput e r).1.HistoryIndex = (e.HistoryIndex + 1) % 10 := by
  rw [ProcessMouseInput_active_state e r h]
  simp [selectAndApply_HistoryIndex, HISTORY_SIZE]

lemma PMI_active_HistoryInitialized (e : FILTER_EXTENSION) (r : MOUSE_REPORT)
    (h : e.FilterActive = true) :
    (ProcessMouseInput e r).1.HistoryInitialized = true := by
  rw [ProcessMouseInput_active_state e r h]
  simp [selectAndApply_HistoryInitialized]

lemma PMI_active_XHistory (e : FILTER_EXTENSION) (r : MOUSE_REPORT)
    (h : e.FilterActive = true) :
    (ProcessMouseInput e r).1.XHistory =
      (if e.HistoryInitialized then e.XHistory else List.replicate 10 0).set
        e.HistoryIndex r.X := by
  rw [ProcessMouseInput_active_state e r h]
  simp [selectAndApply_XHistory]

lemma PMI_active_YHistory (e : FILTER_EXTENSION) (r : MOUSE_REPORT)
    (h : e.FilterActive = true) :
    (ProcessMouseInput e r).1.YHistory =
      (if e.HistoryInitialized then e.YHistory else List.replicate 10 0).set
        e.HistoryIndex r.Y := by
  rw [ProcessMouseInput_active_state e r h]
  simp [selectAndApply_YHistory]

/-! ### Rounding-error bounds for the float paths -/

lemma eps_le : (2:ℚ) ^ (-150 : ℤ) ≤ 1/2^100 := by
  rw [show ((-150 : ℤ)) = -((150 : ℕ) : ℤ) by norm_num, zpow_neg, zpow_natCast]
  norm_num

lemma eps_pos : (0:ℚ) < (2:ℚ) ^ (-150 : ℤ) := by positivity

/-- Absolute rounding error against a magnitude bound. -/
lemma roundF32_err_le (q M : ℚ) (hq : |q| ≤ M) :
    |roundF32 q - q| ≤ M/2^24 + 1/2^100 := by
  have h := roundF32_err q
  have h2 : |q|/2^24 ≤ M/2^24 := by gcongr
  have := eps_le
  linarith

/-- The rounded value keeps (almost) the magnitude bound. -/
lemma roundF32_abs_le (q M : ℚ) (hq : |q| ≤ M) (hM : M ≤ 1000) :
    |roundF32 q| ≤ M + 1 := by
  have h := roundF32_err q
  have htri : |roundF32 q| ≤ |roundF32 q - q| + |q| := by
    have heq : roundF32 q - q + q = roundF32 q := by ring
    calc |roundF32 q| = |roundF32 q - q + q| := by rw [heq]
      _ ≤ |roundF32 q - q| + |q| := abs_add _ _
  have h2 : |q|/2^24 ≤ 1000/2^24 := by
    have : |q| ≤ 1000 := le_trans hq hM
    gcongr
  have := eps_le
  linarith

lemma abs_mul_sub (a a1 c c1 : ℚ) :
    |a * c - a1 * c1| ≤ |a - a1| * |c| + |a1| * |c - c1| := by
  have heq : a * c - a1 * c1 = (a - a1) * c + a1 * (c - c1) := by ring
  rw [heq]
  calc |(a - a1) * c + a1 * (c - c1)| ≤ |(a - a1) * c| + |a1 * (c - c1)| := abs_add _ _
    _ = |a - a1| * |c| + |a1| * |c - c1| := by rw [abs_mul, abs_mul]

lemma rtrunc_mono {u v : ℚ} (h : u ≤ v) : rtrunc u ≤ rtrunc v := by
  unfold rtrunc
  split_ifs with h1 h2 h3
  · exact Int.floor_le_floor h
  · exact absurd (h1.trans h) h2
  · have hu : u ≤ ((0:ℤ):ℚ) := by
      push_cast
      linarith [not_le.mp h1]
    calc ⌈u⌉ ≤ 0 := Int.ceil_le.mpr hu
      _ ≤ ⌊v⌋ := Int.floor_nonneg.mpr h3
  · exact Int.ceil_le_ceil h

lemma rtrunc_add_one_le (v : ℚ) : rtrunc (v + 1) ≤ rtrunc v + 1 := by
  unfold rtrunc
  split_ifs with h1 h2
  · rw [show v + (1:ℚ) = v + ((1:ℤ):ℚ) by push_cast; ring, Int.floor_add_int]
  · have hv : v < 0 := not_le.mp h2
    have hf : ⌊v + 1⌋ < 1 := by
      rw [Int.floor_lt]
      push_cast
      linarith
    have hm1 : (-1 : ℚ) ≤ v := by linarith [h1]
    have hcq : ((-1 : ℤ) : ℚ) ≤ (⌈v⌉ : ℚ) := by
      push_cast
      linarith [Int.le_ceil v]
    have hc : (-1 : ℤ) ≤ ⌈v⌉ := by exact_mod_cast hcq
    omega
  · exact absurd (by linarith : (0:ℚ) ≤ v + 1) h1
  · rw [show v + (1:ℚ) = v + ((1:ℤ):ℚ) by push_cast; ring, Int.ceil_add_int]

lemma rtrunc_within (u v : ℚ) (h : |u - v| ≤ 1) : |rtrunc u - rtrunc v| ≤ 1 := by
  rw [abs_le] at h
  rw [abs_le]
  constructor
  · have h1 : v ≤ u + 1 := by linarith [h.2]
    have hm := rtrunc_mono h1
    have ha := rtrunc_add_one_le u
    omega
  · have h2 : u ≤ v + 1 := by linarith [h.1]
    have hm := rtrunc_mono h2
    have ha := rtrunc_add_one_le v
    omega

lemma clampChar_within (a c : ℤ) (h : |a - c| ≤ 1) : |clampChar a - clampChar c| ≤ 1 := by
  unfold clampChar
  have h1 := abs_max_sub_max_le_max (-128 : ℤ) (min 127 a) (-128) (min 127 c)
  have h2 := abs_min_sub_min_le_max (127:ℤ) a 127 c
  simp only [sub_self, abs_zero] at h1 h2
  have e2 : max (0:ℤ) |a - c| ≤ 1 := max_le (by norm_num) h
  have e1 : |min 127 a - min 127 c| ≤ 1 := le_trans h2 e2
  have e0 : max (0:ℤ) |min 127 a - min 127 c| ≤ 1 := max_le (by norm_num) e1
  exact le_trans h1 e0

lemma clampChar_mem (v : ℤ) : -128 ≤ clampChar v ∧ clampChar v ≤ 127 := by
  unfold clampChar
  exact ⟨le_max_left _ _, max_le (by norm_num) (min_le_left _ _)⟩

/-- The float blend stays within 1/2 of the real-arithmetic blend, for CHAR
range operands and any pair of alphas in [−1,1] that differ by at most
2^(-10). -/
lemma blendF32_err (alpha alphaS : ℚ) (x l : ℤ)
    (hd : |alpha - alphaS| ≤ 1/2^10) (ha : |alpha| ≤ 1) (haS : |alphaS| ≤ 1)
    (hx : |(x:ℚ)| ≤ 128) (hl : |(l:ℚ)| ≤ 128) :
    |blendF32 alpha x l - blendSpec alphaS x l| ≤ 1/2 := by
  have e_xf : |i2f x - (x:ℚ)| ≤ 128/2^24 + 1/2^100 := roundF32_err_le _ 128 hx
  have m_xf : |i2f x| ≤ 129 := by
    have h0 := roundF32_abs_le ((x:ℚ)) 128 hx (by norm_num)
    unfold i2f
    linarith
  have e_lf : |i2f l - (l:ℚ)| ≤ 128/2^24 + 1/2^100 := roundF32_err_le _ 128 hl
  have m_lf : |i2f l| ≤ 129 := by
    have h0 := roundF32_abs_le ((l:ℚ)) 128 hl (by norm_num)
    unfold i2f
    linarith
  have hb1 : |1 - alpha| ≤ 2 := by
    rw [abs_le] at ha ⊢
    constructor <;> linarith [ha.1, ha.2]
  have e_t0 : |roundF32 (1 - alpha) - (1 - alpha)| ≤ 2/2^24 + 1/2^100 :=
    roundF32_err_le _ 2 hb1
  have m_t0 : |roundF32 (1 - alpha)| ≤ 3 := by
    have h0 := roundF32_abs_le _ 2 hb1 (by norm_num)
    linarith
  have e_t0S : |(1 - alpha) - (1 - alphaS)| ≤ 1/2^10 := by
    have heq : (1 - alpha) - (1 - alphaS) = -(alpha - alphaS) := by ring
    rw [heq, abs_neg]
    exact hd
  -- t1 = roundF32 (xf * alpha)
  have m_p1 : |i2f x * alpha| ≤ 129 := by
    rw [abs_mul]
    calc |i2f x| * |alpha| ≤ 129 * 1 :=
          mul_le_mul m_xf ha (abs_nonneg _) (by norm_num)
      _ = 129 := by norm_num
  have e_t1 : |roundF32 (i2f x * alpha) - i2f x * alpha| ≤ 129/2^24 + 1/2^100 :=
    roundF32_err_le _ 129 m_p1
  have m_t1 : |roundF32 (i2f x * alpha)| ≤ 130 := by
    have h0 := roundF32_abs_le _ 129 m_p1 (by norm_num)
    linarith
  have d_p1 : |i2f x * alpha - (x:ℚ) * alphaS| ≤
      (128/2^24 + 1/2^100) * 1 + 128 * (1/2^10) := by
    have htr := abs_mul_sub (i2f x) ((x:ℚ)) alpha alphaS
    have b1 : |i2f x - (x:ℚ)| * |alpha| ≤ (128/2^24 + 1/2^100) * 1 :=
      mul_le_mul e_xf ha (abs_nonneg _) (by norm_num)
    have b2 : |(x:ℚ)| * |alpha - alphaS| ≤ 128 * (1/2^10) :=
      mul_le_mul hx hd (abs_nonneg _) (by norm_num)
    linarith
  have d_t1 : |roundF32 (i2f x * alpha) - (x:ℚ) * alphaS| ≤
      129/2^24 + 1/2^100 + ((128/2^24 + 1/2^100) * 1 + 128 * (1/2^10)) := by
    have htr := abs_sub_le (roundF32 (i2f x * alpha)) (i2f x * alpha) ((x:ℚ) * alphaS)
    linarith
  -- t2 = roundF32 (lf * t0)
  have m_p2 : |i2f l * roundF32 (1 - alpha)| ≤ 387 := by
    rw [abs_mul]
    calc |i2f l| * |roundF32 (1 - alpha)| ≤ 129 * 3 :=
          mul_le_mul m_lf m_t0 (abs_nonneg _) (by norm_num)
      _ = 387 := by norm_num
  have e_t2 : |roundF32 (i2f l * roundF32 (1 - alpha)) - i2f l * roundF32 (1 - alpha)| ≤
      387/2^24 + 1/2^100 := roundF32_err_le _ 387 m_p2
  have m_t2 : |roundF32 (i2f l * roundF32 (1 - alpha))| ≤ 388 := by
    have h0 := roundF32_abs_le _ 387 m_p2 (by norm_num)
    linarith
  have d_t0 : |roundF32 (1 - alpha) - (1 - alphaS)| ≤ 2/2^24 + 1/2^100 + 1/2^10 := by
    have htr := abs_sub_le (roundF32 (1 - alpha)) (1 - alpha) (1 - alphaS)
    linarith
  have haS1 : |1 - alphaS| ≤ 2 := by
    rw [abs_le] at haS ⊢
    constructor <;> linarith [haS.1, haS.2]
  have d_p2 : |i2f l * roundF32 (1 - alpha) - (l:ℚ) * (1 - alphaS)| ≤
      (128/2^24 + 1/2^100) * 3 + 128 * (2/2^24 + 1/2^100 + 1/2^10) := by
    have htr := abs_mul_sub (i2f l) ((l:ℚ)) (roundF32 (1 - alpha)) (1 - alphaS)
    have b1 : |i2f l - (l:ℚ)| * |roundF32 (1 - alpha)| ≤ (128/2^24 + 1/2^100) * 3 :=
      mul_le_mul e_lf m_t0 (abs_nonneg _) (by positivity)
    have b2 : |(l:ℚ)| * |roundF32 (1 - alpha) - (1 - alphaS)| ≤
        128 * (2/2^24 + 1/2^100 + 1/2^10) :=
      mul_le_mul hl d_t0 (abs_nonneg _) (by norm_num)
    linarith
  have d_t2 : |roundF32 (i2f l * roundF32 (1 - alpha)) - (l:ℚ) * (1 - alphaS)| ≤
      387/2^24 + 1/2^100 +
        ((128/2^24 + 1/2^100) * 3 + 128 * (2/2^24 + 1/2^100 + 1/2^10)) := by
    have htr := abs_sub_le (roundF32 (i2f l * roundF32 (1 - alpha)))
      (i2f l * roundF32 (1 - alpha)) ((l:ℚ) * (1 - alphaS))
    linarith
  -- final sum
  have m_sum : |roundF32 (i2f x * alpha) + roundF32 (i2f l * roundF32 (1 - alpha))| ≤ 518 := by
    calc |roundF32 (i2f x * alpha) + roundF32 (i2f l * roundF32 (1 - alpha))| ≤
        |roundF32 (i2f x * alpha)| + |roundF32 (i2f l * roundF32 (1 - alpha))| := abs_add _ _
      _ ≤ 130 + 388 := by linarith
      _ = 518 := by norm_num
  have e_t3 : |roundF32 (roundF32 (i2f x * alpha) + roundF32 (i2f l * roundF32 (1 - alpha))) -
      (roundF32 (i2f x * alpha) + roundF32 (i2f l * roundF32 (1 - alpha)))| ≤
      518/2^24 + 1/2^100 := roundF32_err_le _ 518 m_sum
  have hsplit : (roundF32 (i2f x * alpha) + roundF32 (i2f l * roundF32 (1 - alpha))) -
      blendSpec alphaS x l =
      (roundF32 (i2f x * alpha) - (x:ℚ) * alphaS) +
      (roundF32 (i2f l * roundF32 (1 - alpha)) - (l:ℚ) * (1 - alphaS)) := by
    unfold blendSpec
    ring
  have d_sum : |(roundF32 (i2f x * alpha) + roundF32 (i2f l * roundF32 (1 - alpha))) -
      blendSpec alphaS x l| ≤
      (129/2^24 + 1/2^100 + ((128/2^24 + 1/2^100) * 1 + 128 * (1/2^10))) +
      (387/2^24 + 1/2^100 +
        ((128/2^24 + 1/2^100) * 3 + 128 * (2/2^24 + 1/2^100 + 1/2^10))) := by
    rw [hsplit]
    have htri := abs_add (roundF32 (i2f x * alpha) - (x:ℚ) * alphaS)
      (roundF32 (i2f l * roundF32 (1 - alpha)) - (l:ℚ) * (1 - alphaS))
    linarith
  have hfinal : blendF32 alpha x l =
      roundF32 (roundF32 (i2f x * alpha) + roundF32 (i2f l * roundF32 (1 - alpha))) := rfl
  rw [hfinal]
  have htri := abs_sub_le
    (roundF32 (roundF32 (i2f x * alpha) + roundF32 (i2f l * roundF32 (1 - alpha))))
    (roundF32 (i2f x * alpha) + roundF32 (i2f l * roundF32 (1 - alpha)))
    (blendSpec alphaS x l)
  have : (129:ℚ)/2^24 + 1/2^100 + ((128/2^24 + 1/2^100) * 1 + 128 * (1/2^10)) +
      (387/2^24 + 1/2^100 +
        ((128/2^24 + 1/2^100) * 3 + 128 * (2/2^24 + 1/2^100 + 1/2^10))) +
      (518/2^24 + 1/2^100) ≤ 1/2 := by norm_num
  linarith

/-- The float alpha of the exponential algorithm is within 2^(-10) of the
specification alpha, and both lie in [−1, 1]. -/
lemma alphaExpo_err (s : ℤ) (h75 : 75 < s) (h100 : s ≤ 100) :
    |alphaExpo s - alphaExpoSpec s| ≤ 1/2^10 ∧ |alphaExpo s| ≤ 1 ∧ |alphaExpoSpec s| ≤ 1 := by
  set n : ℚ := ((100 - s : ℤ) : ℚ) with hn
  have hn0 : (0:ℚ) ≤ n := by
    rw [hn]; exact_mod_cast (by omega : (0:ℤ) ≤ 100 - s)
  have hn24 : n ≤ 24 := by
    rw [hn]; exact_mod_cast (by omega : (100 - s : ℤ) ≤ 24)
  have hnabs : |n| ≤ 24 := abs_le.mpr ⟨by linarith, hn24⟩
  have hi2f : i2f (100 - s) = roundF32 n := by rw [hn]; rfl
  have e1 : |roundF32 n - n| ≤ 24/2^24 + 1/2^100 := roundF32_err_le n 24 hnabs
  have m1 : |roundF32 n| ≤ 25 := by
    have h0 := roundF32_abs_le n 24 hnabs (by norm_num)
    linarith
  have e2 : |roundF32 n / 100 - n / 100| ≤ (24/2^24 + 1/2^100)/100 := by
    rw [show roundF32 n / 100 - n / 100 = (roundF32 n - n)/100 by ring, abs_div,
      show |(100:ℚ)| = 100 from by norm_num]
    gcongr
  have m2 : |roundF32 n / 100| ≤ 1 := by
    rw [abs_div, show |(100:ℚ)| = 100 from by norm_num, div_le_one (by norm_num)]
    linarith
  have e3 : |roundF32 (roundF32 n / 100) - roundF32 n / 100| ≤ 1/2^24 + 1/2^100 :=
    roundF32_err_le _ 1 m2
  have d3 : |roundF32 (roundF32 n / 100) - n/100| ≤
      1/2^24 + 1/2^100 + (24/2^24 + 1/2^100)/100 := by
    have htr := abs_sub_le (roundF32 (roundF32 n / 100)) (roundF32 n / 100) (n/100)
    linarith
  have c01e : |roundF32 (1/100) - 1/100| ≤ (1/100)/2^24 + 1/2^100 :=
    roundF32_err_le _ (1/100)
      (by rw [abs_of_pos (by norm_num : (0:ℚ) < 1/100)])
  have Lmin := abs_min_sub_min_le_max (1:ℚ) (roundF32 (roundF32 n / 100)) 1 (n/100)
  simp only [sub_self, abs_zero] at Lmin
  have Lmin2 : |min 1 (roundF32 (roundF32 n / 100)) - min 1 (n/100)| ≤
      |roundF32 (roundF32 n / 100) - n/100| := by
    rw [max_eq_right (abs_nonneg _)] at Lmin
    exact Lmin
  have Lmax := abs_max_sub_max_le_max (roundF32 (1/100))
    (min 1 (roundF32 (roundF32 n / 100))) (1/100) (min 1 (n/100))
  have hunfold : alphaExpo s = max (roundF32 (1/100)) (min 1 (roundF32 (roundF32 n / 100))) := by
    unfold alphaExpo
    rw [hi2f]
  have hunfoldS : alphaExpoSpec s = max (1/100) (min 1 (n/100)) := by
    unfold alphaExpoSpec
    rw [hn]
  have hc := abs_le.mp c01e
  refine ⟨?_, ?_, ?_⟩
  · rw [hunfold, hunfoldS]
    have hb : max |roundF32 (1/100) - 1/100|
        |min 1 (roundF32 (roundF32 n / 100)) - min 1 (n/100)| ≤ 1/2^10 := by
      apply max_le
      · linarith
      · linarith [le_trans Lmin2 d3]
    exact le_trans Lmax hb
  · rw [hunfold, abs_le]
    constructor
    · calc (-1:ℚ) ≤ roundF32 (1/100) := by linarith [hc.1]
        _ ≤ max (roundF32 (1/100)) (min 1 (roundF32 (roundF32 n / 100))) := le_max_left _ _
    · apply max_le
      · linarith [hc.2]
      · exact min_le_left _ _
  · rw [hunfoldS, abs_le]
    constructor
    · calc (-1:ℚ) ≤ 1/100 := by norm_num
        _ ≤ max (1/100) (min 1 (n/100)) := le_max_left _ _
    · apply max_le
      · norm_num
      · exact min_le_left _ _

/-- The float alpha of the adaptive algorithm is within 2^(-10) of the
specification alpha, and both lie in [−1, 1]. -/
lemma alphaAdaptive_err (r v : ℤ) (hr0 : 0 ≤ r) (hr100 : r ≤ 100)
    (hv0 : 0 ≤ v) (hv256 : v ≤ 256) :
    |alphaAdaptive r v - alphaAdaptiveSpec r v| ≤ 1/2^10 ∧
    |alphaAdaptive r v| ≤ 1 ∧ |alphaAdaptiveSpec r v| ≤ 1 := by
  have hrq0 : (0:ℚ) ≤ (r:ℚ) := by exact_mod_cast hr0
  have hrq1 : (r:ℚ) ≤ 100 := by exact_mod_cast hr100
  have hra : |(r:ℚ)| ≤ 100 := abs_le.mpr ⟨by linarith, hrq1⟩
  have hvq0 : (0:ℚ) ≤ (v:ℚ) := by exact_mod_cast hv0
  have hvq1 : (v:ℚ) ≤ 256 := by exact_mod_cast hv256
  have hva : |(v:ℚ)| ≤ 256 := abs_le.mpr ⟨by linarith, hvq1⟩
  -- baseAlpha
  have e_rf : |i2f r - (r:ℚ)| ≤ 100/2^24 + 1/2^100 := roundF32_err_le _ 100 hra
  have m_rf : |i2f r| ≤ 101 := by
    have h0 := roundF32_abs_le ((r:ℚ)) 100 hra (by norm_num)
    unfold i2f
    linarith
  have m_q1 : |i2f r / 100| ≤ 2 := by
    rw [abs_div, show |(100:ℚ)| = 100 from by norm_num, div_le_iff₀ (by norm_num : (0:ℚ) < 100)]
    linarith
  have e_b0 : |roundF32 (i2f r / 100) - i2f r / 100| ≤ 2/2^24 + 1/2^100 :=
    roundF32_err_le _ 2 m_q1
  have m_b0 : |roundF32 (i2f r / 100)| ≤ 3 := by
    have h0 := roundF32_abs_le _ 2 m_q1 (by norm_num)
    linarith
  have e_q1 : |i2f r / 100 - (r:ℚ)/100| ≤ (100/2^24 + 1/2^100)/100 := by
    rw [show i2f r / 100 - (r:ℚ)/100 = (i2f r - (r:ℚ))/100 by ring, abs_div,
      show |(100:ℚ)| = 100 from by norm_num]
    gcongr
  have d_b0 : |roundF32 (i2f r / 100) - (r:ℚ)/100| ≤ 1/2^21 := by
    have htr := abs_sub_le (roundF32 (i2f r / 100)) (i2f r / 100) ((r:ℚ)/100)
    linarith
  have mS_b0 : |(r:ℚ)/100| ≤ 1 := by
    rw [abs_div, show |(100:ℚ)| = 100 from by norm_num, div_le_one (by norm_num)]
    linarith
  -- velocityFactor
  have e_vf0 : |i2f v - (v:ℚ)| ≤ 256/2^24 + 1/2^100 := roundF32_err_le _ 256 hva
  have m_vf0 : |i2f v| ≤ 257 := by
    have h0 := roundF32_abs_le ((v:ℚ)) 256 hva (by norm_num)
    unfold i2f
    linarith
  have m_q2 : |i2f v / 20| ≤ 13 := by
    rw [abs_div, show |(20:ℚ)| = 20 from by norm_num, div_le_iff₀ (by norm_num : (0:ℚ) < 20)]
    linarith
  have e_v1 : |roundF32 (i2f v / 20) - i2f v / 20| ≤ 13/2^24 + 1/2^100 :=
    roundF32_err_le _ 13 m_q2
  have e_q2 : |i2f v / 20 - (v:ℚ)/20| ≤ (256/2^24 + 1/2^100)/20 := by
    rw [show i2f v / 20 - (v:ℚ)/20 = (i2f v - (v:ℚ))/20 by ring, abs_div,
      show |(20:ℚ)| = 20 from by norm_num]
    gcongr
  have d_v1 : |roundF32 (i2f v / 20) - (v:ℚ)/20| ≤ 1/2^18 := by
    have htr := abs_sub_le (roundF32 (i2f v / 20)) (i2f v / 20) ((v:ℚ)/20)
    linarith
  have Lminv := abs_min_sub_min_le_max (1:ℚ) (roundF32 (i2f v / 20)) 1 ((v:ℚ)/20)
  simp only [sub_self, abs_zero] at Lminv
  have d_vf : |min 1 (roundF32 (i2f v / 20)) - min 1 ((v:ℚ)/20)| ≤ 1/2^18 := by
    rw [max_eq_right (abs_nonneg _)] at Lminv
    linarith
  have hv1nn : (0:ℚ) ≤ roundF32 (i2f v / 20) := by
    apply roundF32_nonneg
    apply div_nonneg _ (by norm_num)
    exact roundF32_nonneg _ hvq0
  have m_vf : |min 1 (roundF32 (i2f v / 20))| ≤ 1 := by
    rw [abs_le]
    constructor
    · have h0 : (0:ℚ) ≤ min 1 (roundF32 (i2f v / 20)) := le_min (by norm_num) hv1nn
      linarith
    · exact min_le_left _ _
  have mS_vf : |min 1 ((v:ℚ)/20)| ≤ 1 := by
    rw [abs_le]
    constructor
    · have h0 : (0:ℚ) ≤ min 1 ((v:ℚ)/20) := le_min (by norm_num) (by positivity)
      linarith
    · exact min_le_left _ _
  -- 1 - baseAlpha, the product, the sum
  have m_1b : |1 - roundF32 (i2f r / 100)| ≤ 4 := by
    rw [abs_le] at m_b0 ⊢
    constructor <;> linarith [m_b0.1, m_b0.2]
  have e_u1 : |roundF32 (1 - roundF32 (i2f r / 100)) - (1 - roundF32 (i2f r / 100))| ≤
      4/2^24 + 1/2^100 := roundF32_err_le _ 4 m_1b
  have m_u1 : |roundF32 (1 - roundF32 (i2f r / 100))| ≤ 5 := by
    have h0 := roundF32_abs_le _ 4 m_1b (by norm_num)
    linarith
  have d_u1 : |roundF32 (1 - roundF32 (i2f r / 100)) - (1 - (r:ℚ)/100)| ≤ 1/2^19 := by
    have heq : (1 - roundF32 (i2f r / 100)) - (1 - (r:ℚ)/100) =
        -(roundF32 (i2f r / 100) - (r:ℚ)/100) := by ring
    have h2 : |(1 - roundF32 (i2f r / 100)) - (1 - (r:ℚ)/100)| ≤ 1/2^21 := by
      rw [heq, abs_neg]
      exact d_b0
    have htr := abs_sub_le (roundF32 (1 - roundF32 (i2f r / 100)))
      (1 - roundF32 (i2f r / 100)) (1 - (r:ℚ)/100)
    linarith
  have mS_1b : |1 - (r:ℚ)/100| ≤ 1 := by
    rw [abs_le]
    constructor
    · rw [abs_le] at mS_b0
      linarith [mS_b0.2]
    · have : (0:ℚ) ≤ (r:ℚ)/100 := by positivity
      linarith
  have m_p : |roundF32 (1 - roundF32 (i2f r / 100)) * min 1 (roundF32 (i2f v / 20))| ≤ 5 := by
    rw [abs_mul]
    calc |roundF32 (1 - roundF32 (i2f r / 100))| * |min 1 (roundF32 (i2f v / 20))| ≤ 5 * 1 :=
          mul_le_mul m_u1 m_vf (abs_nonneg _) (by norm_num)
      _ = 5 := by norm_num
  have e_u2 : |roundF32 (roundF32 (1 - roundF32 (i2f r / 100)) * min 1 (roundF32 (i2f v / 20))) -
      roundF32 (1 - roundF32 (i2f r / 100)) * min 1 (roundF32 (i2f v / 20))| ≤
      5/2^24 + 1/2^100 := roundF32_err_le _ 5 m_p
  have m_u2 : |roundF32 (roundF32 (1 - roundF32 (i2f r / 100)) * min 1 (roundF32 (i2f v / 20)))| ≤
      6 := by
    have h0 := roundF32_abs_le _ 5 m_p (by norm_num)
    linarith
  have d_p : |roundF32 (1 - roundF32 (i2f r / 100)) * min 1 (roundF32 (i2f v / 20)) -
      (1 - (r:ℚ)/100) * min 1 ((v:ℚ)/20)| ≤ 1/2^17 := by
    have htr := abs_mul_sub (roundF32 (1 - roundF32 (i2f r / 100))) (1 - (r:ℚ)/100)
      (min 1 (roundF32 (i2f v / 20))) (min 1 ((v:ℚ)/20))
    have b1 : |roundF32 (1 - roundF32 (i2f r / 100)) - (1 - (r:ℚ)/100)| *
        |min 1 (roundF32 (i2f v / 20))| ≤ (1/2^19) * 1 :=
      mul_le_mul d_u1 m_vf (abs_nonneg _) (by norm_num)
    have b2 : |1 - (r:ℚ)/100| * |min 1 (roundF32 (i2f v / 20)) - min 1 ((v:ℚ)/20)| ≤
        1 * (1/2^18) :=
      mul_le_mul mS_1b d_vf (abs_nonneg _) (by norm_num)
    linarith
  have d_u2 : |roundF32 (roundF32 (1 - roundF32 (i2f r / 100)) * min 1 (roundF32 (i2f v / 20))) -
      (1 - (r:ℚ)/100) * min 1 ((v:ℚ)/20)| ≤ 1/2^16 := by
    have htr := abs_sub_le
      (roundF32 (roundF32 (1 - roundF32 (i2f r / 100)) * min 1 (roundF32 (i2f v / 20))))
      (roundF32 (1 - roundF32 (i2f r / 100)) * min 1 (roundF32 (i2f v / 20)))
      ((1 - (r:ℚ)/100) * min 1 ((v:ℚ)/20))
    linarith
  have m_sum : |roundF32 (i2f r / 100) +
      roundF32 (roundF32 (1 - roundF32 (i2f r / 100)) * min 1 (roundF32 (i2f v / 20)))| ≤ 9 := by
    have htr := abs_add (roundF32 (i2f r / 100))
      (roundF32 (roundF32 (1 - roundF32 (i2f r / 100)) * min 1 (roundF32 (i2f v / 20))))
    linarith
  have e_t : |roundF32 (roundF32 (i2f r / 100) +
      roundF32 (roundF32 (1 - roundF32 (i2f r / 100)) * min 1 (roundF32 (i2f v / 20)))) -
      (roundF32 (i2f r / 100) +
        roundF32 (roundF32 (1 - roundF32 (i2f r / 100)) * min 1 (roundF32 (i2f v / 20))))| ≤
      9/2^24 + 1/2^100 := roundF32_err_le _ 9 m_sum
  have d_sum : |(roundF32 (i2f r / 100) +
      roundF32 (roundF32 (1 - roundF32 (i2f r / 100)) * min 1 (roundF32 (i2f v / 20)))) -
      ((r:ℚ)/100 + (1 - (r:ℚ)/100) * min 1 ((v:ℚ)/20))| ≤ 1/2^15 := by
    have heq : (roundF32 (i2f r / 100) +
        roundF32 (roundF32 (1 - roundF32 (i2f r / 100)) * min 1 (roundF32 (i2f v / 20)))) -
        ((r:ℚ)/100 + (1 - (r:ℚ)/100) * min 1 ((v:ℚ)/20)) =
        (roundF32 (i2f r / 100) - (r:ℚ)/100) +
        (roundF32 (roundF32 (1 - roundF32 (i2f r / 100)) * min 1 (roundF32 (i2f v / 20))) -
          (1 - (r:ℚ)/100) * min 1 ((v:ℚ)/20)) := by ring
    rw [heq]
    have htr := abs_add (roundF32 (i2f r / 100) - (r:ℚ)/100)
      (roundF32 (roundF32 (1 - roundF32 (i2f r / 100)) * min 1 (roundF32 (i2f v / 20))) -
        (1 - (r:ℚ)/100) * min 1 ((v:ℚ)/20))
    linarith
  have d_t : |roundF32 (roundF32 (i2f r / 100) +
      roundF32 (roundF32 (1 - roundF32 (i2f r / 100)) * min 1 (roundF32 (i2f v / 20)))) -
      ((r:ℚ)/100 + (1 - (r:ℚ)/100) * min 1 ((v:ℚ)/20))| ≤ 1/2^14 := by
    have htr := abs_sub_le
      (roundF32 (roundF32 (i2f r / 100) +
        roundF32 (roundF32 (1 - roundF32 (i2f r / 100)) * min 1 (roundF32 (i2f v / 20)))))
      (roundF32 (i2f r / 100) +
        roundF32 (roundF32 (1 - roundF32 (i2f r / 100)) * min 1 (roundF32 (i2f v / 20))))
      ((r:ℚ)/100 + (1 - (r:ℚ)/100) * min 1 ((v:ℚ)/20))
    linarith
  -- the clamp constants
  have c09e : |roundF32 (9/10) - 9/10| ≤ (9/10)/2^24 + 1/2^100 :=
    roundF32_err_le _ (9/10) (by rw [abs_of_pos (by norm_num : (0:ℚ) < 9/10)])
  have c01e : |roundF32 (1/10) - 1/10| ≤ (1/10)/2^24 + 1/2^100 :=
    roundF32_err_le _ (1/10) (by rw [abs_of_pos (by norm_num : (0:ℚ) < 1/10)])
  have hc09 := abs_le.mp c09e
  have hc01 := abs_le.mp c01e
  have Lmin := abs_min_sub_min_le_max (roundF32 (9/10))
    (roundF32 (roundF32 (i2f r / 100) +
      roundF32 (roundF32 (1 - roundF32 (i2f r / 100)) * min 1 (roundF32 (i2f v / 20)))))
    (9/10) ((r:ℚ)/100 + (1 - (r:ℚ)/100) * min 1 ((v:ℚ)/20))
  have Lmax := abs_max_sub_max_le_max (roundF32 (1/10))
    (min (roundF32 (9/10)) (roundF32 (roundF32 (i2f r / 100) +
      roundF32 (roundF32 (1 - roundF32 (i2f r / 100)) * min 1 (roundF32 (i2f v / 20))))))
    (1/10)
    (min (9/10) ((r:ℚ)/100 + (1 - (r:ℚ)/100) * min 1 ((v:ℚ)/20)))
  have hunfold : alphaAdaptive r v = max (roundF32 (1/10))
      (min (roundF32 (9/10)) (roundF32 (roundF32 (i2f r / 100) +
        roundF32 (roundF32 (1 - roundF32 (i2f r / 100)) * min 1 (roundF32 (i2f v / 20)))))) :=
    rfl
  have hunfoldS : alphaAdaptiveSpec r v = max (1/10)
      (min (9/10) ((r:ℚ)/100 + (1 - (r:ℚ)/100) * min 1 ((v:ℚ)/20))) := rfl
  refine ⟨?_, ?_, ?_⟩
  · rw [hunfold, hunfoldS]
    refine le_trans Lmax (max_le (by linarith) (le_trans Lmin (max_le (by linarith) (by linarith))))
  · rw [hunfold, abs_le]
    constructor
    · calc (-1:ℚ) ≤ roundF32 (1/10) := by linarith [hc01.1]
        _ ≤ _ := le_max_left _ _
    · apply max_le
      · linarith [hc01.2]
      · calc min (roundF32 (9/10)) _ ≤ roundF32 (9/10) := min_le_left _ _
          _ ≤ 1 := by linarith [hc09.2]
  · rw [hunfoldS, abs_le]
    constructor
    · calc (-1:ℚ) ≤ 1/10 := by norm_num
        _ ≤ _ := le_max_left _ _
    · apply max_le
      · norm_num
      · calc min (9/10 : ℚ) _ ≤ 9/10 := min_le_left _ _
          _ ≤ 1 := by norm_num

/-! ### Claim theorems -/

section ClaimProofs

attribute [local semireducible] Rat.add Rat.mul Rat.sub Rat.inv

set_option maxRecDepth 10000

/-- Claim C1: while the active flag is false, an in-band write-report request
passes through byte-for-byte unmodified: the filter engine is not invoked
(the device state is untouched) and the forwarded buffer equals the input. -/
theorem C1_inactive_passthrough (ext : FILTER_EXTENSION) (buf : List ℕ)
    (h : ext.FilterActive = false) :
    HidFilterDriverIoInternalDeviceControl ext .writeReport buf = (ext, buf) := by
  unfold HidFilterDriverIoInternalDeviceControl
  rw [h]
  rfl

theorem C1_inactive_passthrough_witness :
    deviceAddInit.FilterActive = false ∧
      HidFilterDriverIoInternalDeviceControl deviceAddInit .writeReport [1, 2, 3, 4] =
        (deviceAddInit, [1, 2, 3, 4]) :=
  ⟨by decide, C1_inactive_passthrough deviceAddInit [1, 2, 3, 4] (by decide)⟩

/-- Claim C8: a write-report with active filter but an input buffer shorter
than the 4-byte MOUSE_REPORT skips filtering and is forwarded with its
payload unmodified; the state is untouched and no error is produced. -/
theorem C8_short_buffer_passthrough (ext : FILTER_EXTENSION) (buf : List ℕ)
    (h : ext.FilterActive = true) (hlen : buf.length < 4) :
    HidFilterDriverIoInternalDeviceControl ext .writeReport buf = (ext, buf) := by
  unfold HidFilterDriverIoInternalDeviceControl
  rw [h]
  simp only [if_true]
  rw [if_neg (by omega)]

theorem C8_short_buffer_passthrough_witness :
    ({ deviceAddInit with FilterActive := true } : FILTER_EXTENSION).FilterActive = true ∧
      ([1, 2, 3] : List ℕ).length < 4 ∧
      HidFilterDriverIoInternalDeviceControl { deviceAddInit with FilterActive := true }
        .writeReport [1, 2, 3] = ({ deviceAddInit with FilterActive := true }, [1, 2, 3]) :=
  ⟨by decide, by decide,
   C8_short_buffer_passthrough { deviceAddInit with FilterActive := true } [1, 2, 3]
     (by decide) (by decide)⟩

/-- Claim C10: the filter engine mutates only X and Y: for every report the
Buttons and Wheel fields survive ProcessMouseInput unchanged, and on the
write-report path bytes 0 (Buttons) and 3 (Wheel) of the forwarded buffer
equal those of the input buffer. -/
theorem C10_buttons_wheel_preserved (ext : FILTER_EXTENSION) (rep : MOUSE_REPORT)
    (buf : List ℕ) :
    (ProcessMouseInput ext rep).2.Buttons = rep.Buttons ∧
    (ProcessMouseInput ext rep).2.Wheel = rep.Wheel ∧
    (HidFilterDriverIoInternalDeviceControl ext .writeReport buf).2.getD 0 0 = buf.getD 0 0 ∧
    (HidFilterDriverIoInternalDeviceControl ext .writeReport buf).2.getD 3 0 = buf.getD 3 0 := by
  refine ⟨?_, ?_, ?_, ?_⟩
  · unfold ProcessMouseInput; split <;> rfl
  · unfold ProcessMouseInput; split <;> rfl
  · unfold HidFilterDriverIoInternalDeviceControl
    split
    · rfl
    · rfl
    · split
      · split
        · unfold encodeReport
          rw [List.getD_eq_getElem?_getD, List.getD_eq_getElem?_getD]
          rw [List.getElem?_set_ne (by omega), List.getElem?_set_ne (by omega)]
        · rfl
      · rfl
  · unfold HidFilterDriverIoInternalDeviceControl
    split
    · rfl
    · rfl
    · split
      · split
        · unfold encodeReport
          rw [List.getD_eq_getElem?_getD, List.getD_eq_getElem?_getD]
          rw [List.getElem?_set_ne (by omega), List.getElem?_set_ne (by omega)]
        · rfl
      · rfl

/-- Claim C2: for each of Set-Smoothing, Set-Response and Set-Filtering with a
sufficiently long input buffer: a value outside [0,100] yields a range error
and leaves the whole state unchanged; a value inside [0,100] is stored exactly
and a subsequent Get-Parameters returns it. -/
theorem C2_tunable_range_validation (ext : FILTER_EXTENSION) (pending : List ℕ)
    (reqId : ℕ) (inLen outLen : ℕ) (b : Bool) (v : ℤ)
    (hin : 4 ≤ inLen) (hout : 16 ≤ outLen) :
    (((v < 0 ∨ 100 < v) →
        (HidFilterDriverIoDeviceControl ext pending reqId .setSmoothing inLen outLen b v).1 = ext ∧
        (HidFilterDriverIoDeviceControl ext pending reqId .setSmoothing inLen outLen b v).2.2.1 =
          [.completeReq reqId .invalidParameter]) ∧
      (0 ≤ v → v ≤ 100 →
        (HidFilterDriverIoDeviceControl ext pending reqId .setSmoothing inLen outLen b v).1 =
          { ext with SmoothingFactor := v } ∧
        (HidFilterDriverIoDeviceControl ext pending reqId .setSmoothing inLen outLen b v).2.2.1 =
          [.completeReq reqId .success] ∧
        (HidFilterDriverIoDeviceControl
          (HidFilterDriverIoDeviceControl ext pending reqId .setSmoothing inLen outLen b v).1
          pending reqId .getParameters inLen outLen b v).2.2.2 =
          some ⟨ext.FilterActive, v, ext.ResponseSpeed, ext.FilteringStrength⟩)) ∧
    (((v < 0 ∨ 100 < v) →
        (HidFilterDriverIoDeviceControl ext pending reqId .setResponse inLen outLen b v).1 = ext ∧
        (HidFilterDriverIoDeviceControl ext pending reqId .setResponse inLen outLen b v).2.2.1 =
          [.completeReq reqId .invalidParameter]) ∧
      (0 ≤ v → v ≤ 100 →
        (HidFilterDriverIoDeviceControl ext pending reqId .setResponse inLen outLen b v).1 =
          { ext with ResponseSpeed := v } ∧
        (HidFilterDriverIoDeviceControl ext pending reqId .setResponse inLen outLen b v).2.2.1 =
          [.completeReq reqId .success] ∧
        (HidFilterDriverIoDeviceControl
          (HidFilterDriverIoDeviceControl ext pending reqId .setResponse inLen outLen b v).1
          pending reqId .getParameters inLen outLen b v).2.2.2 =
          some ⟨ext.FilterActive, ext.SmoothingFactor, v, ext.FilteringStrength⟩)) ∧
    (((v < 0 ∨ 100 < v) →
        (HidFilterDriverIoDeviceControl ext pending reqId .setFiltering inLen outLen b v).1 = ext ∧
        (HidFilterDriverIoDeviceControl ext pending reqId .setFiltering inLen outLen b v).2.2.1 =
          [.completeReq reqId .invalidParameter]) ∧
      (0 ≤ v → v ≤ 100 →
        (HidFilterDriverIoDeviceControl ext pending reqId .setFiltering inLen outLen b v).1 =
          { ext with FilteringStrength := v } ∧
        (HidFilterDriverIoDeviceControl ext pending reqId .setFiltering inLen outLen b v).2.2.1 =
          [.completeReq reqId .success] ∧
        (HidFilterDriverIoDeviceControl
          (HidFilterDriverIoDeviceControl ext pending reqId .setFiltering inLen outLen b v).1
          pending reqId .getParameters inLen outLen b v).2.2.2 =
          some ⟨ext.FilterActive, ext.SmoothingFactor, ext.ResponseSpeed, v⟩)) := by
  have hin' : ¬ (inLen < sizeofLONG) := by
    unfold sizeofLONG; omega
  have hout' : ¬ (outLen < sizeofPARAMETERS) := by
    unfold sizeofPARAMETERS; omega
  refine ⟨⟨?_, ?_⟩, ⟨?_, ?_⟩, ⟨?_, ?_⟩⟩ <;>
    first
    | (intro hv
       have hcond : ¬ (0 ≤ v ∧ v ≤ 100) := by omega
       simp [HidFilterDriverIoDeviceControl, hin', hout', hcond])
    | (intro h0 h100
       have hcond : (0 ≤ v ∧ v ≤ 100) := ⟨h0, h100⟩
       simp [HidFilterDriverIoDeviceControl, hin', hout', hcond])

theorem C2_tunable_range_validation_witness :
    (4 ≤ 4 ∧ 16 ≤ 16) ∧
      (HidFilterDriverIoDeviceControl deviceAddInit [] 7 .setSmoothing 4 16 false 60).1.SmoothingFactor
        = 60 ∧
      (HidFilterDriverIoDeviceControl deviceAddInit [] 7 .setSmoothing 4 16 false 999).1 =
        deviceAddInit := by
  refine ⟨⟨le_rfl, le_rfl⟩, ?_, ?_⟩
  · have h := (C2_tunable_range_validation deviceAddInit [] 7 4 16 false 60
      (by decide) (by decide)).1.2 (by decide) (by decide)
    rw [h.1]
  · exact ((C2_tunable_range_validation deviceAddInit [] 7 4 16 false 999
      (by decide) (by decide)).1.1 (by decide)).1

/-- Claim C3: while active, exactly one algorithm runs per report, selected
purely from SmoothingFactor: above 75 Exponential, in (25, 75] the windowed
average, at or below 25 Adaptive. -/
theorem C3_algorithm_selection (ext : FILTER_EXTENSION) (b : ℕ) (x y w : ℤ)
    (h : ext.FilterActive = true) :
    (75 < ext.SmoothingFactor →
      ProcessMouseInput ext ⟨b, x, y, w⟩ =
        ((fun r => ({ r.1 with LastXPosition := r.2.1, LastYPosition := r.2.2 },
          (⟨b, r.2.1, r.2.2, w⟩ : MOUSE_REPORT)))
          (ApplyExponentialSmoothing (storeHistory ext x y) x y))) ∧
    (25 < ext.SmoothingFactor → ext.SmoothingFactor ≤ 75 →
      ProcessMouseInput ext ⟨b, x, y, w⟩ =
        ((fun r => ({ r.1 with LastXPosition := r.2.1, LastYPosition := r.2.2 },
          (⟨b, r.2.1, r.2.2, w⟩ : MOUSE_REPORT)))
          (ApplyMovingAverage (storeHistory ext x y) x y))) ∧
    (ext.SmoothingFactor ≤ 25 →
      ProcessMouseInput ext ⟨b, x, y, w⟩ =
        ((fun r => ({ r.1 with LastXPosition := r.2.1, LastYPosition := r.2.2 },
          (⟨b, r.2.1, r.2.2, w⟩ : MOUSE_REPORT)))
          (ApplyAdaptiveFiltering (storeHistory ext x y) x y))) := by
  refine ⟨?_, ?_, ?_⟩
  · intro h75
    simp [ProcessMouseInput, selectAndApply, h, h75]
  · intro h25 h75
    have notH : ¬ (75 < ext.SmoothingFactor) := by omega
    simp [ProcessMouseInput, selectAndApply, h, h25, notH]
  · intro h25
    have notH : ¬ (75 < ext.SmoothingFactor) := by omega
    have notH2 : ¬ (25 < ext.SmoothingFactor) := by omega
    simp [ProcessMouseInput, selectAndApply, h, notH, notH2]

theorem C3_algorithm_selection_witness :
    ({ deviceAddInit with FilterActive := true, SmoothingFactor := 80 } :
        FILTER_EXTENSION).FilterActive = true ∧
      ProcessMouseInput { deviceAddInit with FilterActive := true, SmoothingFactor := 80 }
          ⟨0, 5, 5, 0⟩ =
        ((fun r => ({ r.1 with LastXPosition := r.2.1, LastYPosition := r.2.2 },
          (⟨0, r.2.1, r.2.2, 0⟩ : MOUSE_REPORT)))
          (ApplyExponentialSmoothing
            (storeHistory { deviceAddInit with FilterActive := true, SmoothingFactor := 80 } 5 5)
            5 5)) :=
  ⟨by decide,
   (C3_algorithm_selection { deviceAddInit with FilterActive := true, SmoothingFactor := 80 }
      0 5 5 0 (by decide)).1 (by decide)⟩

/-- Claim C9: every control-surface request is completed or forwarded exactly
once; an unrecognized control code is queued to the pending queue and the next
item drained from that queue is forwarded downstream (with the reachable
empty pending queue, that item is the originating request itself). -/
theorem C9_complete_exactly_once (ext : FILTER_EXTENSION) (pending : List ℕ)
    (reqId : ℕ) (code : CtlCode) (inLen outLen : ℕ) (b : Bool) (v : ℤ)
    (h : pending = []) :
    (((HidFilterDriverIoDeviceControl ext pending reqId code inLen outLen b v).2.2.1.filter
        (touches reqId)).length = 1) ∧
    (code = CtlCode.unknownCode →
      (HidFilterDriverIoDeviceControl ext pending reqId code inLen outLen b v).2.2.1 =
        [Action.forwardReq reqId] ∧
      (HidFilterDriverIoDeviceControl ext pending reqId code inLen outLen b v).2.1 = []) := by
  subst h
  cases code <;>
    simp [HidFilterDriverIoDeviceControl, touches] <;>
    split_ifs <;>
    simp [touches]

theorem C9_complete_exactly_once_witness :
    (([] : List ℕ) = []) ∧
      ((HidFilterDriverIoDeviceControl deviceAddInit [] 5 .unknownCode 0 0 false 0).2.2.1.filter
        (touches 5)).length = 1 :=
  ⟨rfl, (C9_complete_exactly_once deviceAddInit [] 5 .unknownCode 0 0 false 0 rfl).1⟩

lemma writeSeq_stats (ps : List (ℤ × ℤ)) : ∀ e : FILTER_EXTENSION,
    e.FilterActive = true → e.HistoryInitialized = true →
    e.XHistory.length = 10 → 1 ≤ e.HistoryIndex → e.HistoryIndex ≤ 9 →
    e.HistoryIndex + ps.length ≤ 10 →
    (writeSeq e ps).FilterActive = true ∧
    (writeSeq e ps).HistoryInitialized = true ∧
    (writeSeq e ps).XHistory.length = 10 ∧
    (writeSeq e ps).HistoryIndex = (e.HistoryIndex + ps.length) % 10 ∧
    (writeSeq e ps).XHistory.getD 0 0 = e.XHistory.getD 0 0 := by
  induction ps with
  | nil =>
    intro e hA hI hlen h1 h9 h2
    rw [show writeSeq e [] = e from rfl]
    refine ⟨hA, hI, hlen, ?_, rfl⟩
    simp only [List.length_nil, Nat.add_zero]
    omega
  | cons p rest ih =>
    intro e hA hI hlen h1 h9 h2
    have hA' : ((ProcessMouseInput e ⟨0, p.1, p.2, 0⟩).1).FilterActive = true := by
      rw [PMI_FilterActive]; exact hA
    have hI' := PMI_active_HistoryInitialized e ⟨0, p.1, p.2, 0⟩ hA
    have hIdx' := PMI_active_HistoryIndex e ⟨0, p.1, p.2, 0⟩ hA
    have hLen' : ((ProcessMouseInput e ⟨0, p.1, p.2, 0⟩).1).XHistory.length = 10 := by
      rw [PMI_active_XHistory e _ hA, List.length_set, if_pos hI]; exact hlen
    have hSlot' : ((ProcessMouseInput e ⟨0, p.1, p.2, 0⟩).1).XHistory.getD 0 0 =
        e.XHistory.getD 0 0 := by
      rw [PMI_active_XHistory e _ hA, if_pos hI, List.getD_eq_getElem?_getD,
        List.getElem?_set_ne (by omega), ← List.getD_eq_getElem?_getD]
    have hstep : writeSeq e (p :: rest) =
        writeSeq ((ProcessMouseInput e ⟨0, p.1, p.2, 0⟩).1) rest := rfl
    rw [hstep]
    by_cases hend : e.HistoryIndex + 1 = 10
    · have hrl : rest.length = 0 := by
        simp only [List.length_cons] at h2; omega
      have hrest : rest = [] := List.eq_nil_of_length_eq_zero hrl
      subst hrest
      refine ⟨hA', hI', hLen', ?_, hSlot'⟩
      rw [show writeSeq ((ProcessMouseInput e ⟨0, p.1, p.2, 0⟩).1) [] =
        (ProcessMouseInput e ⟨0, p.1, p.2, 0⟩).1 from rfl, hIdx']
      simp only [List.length_cons, List.length_nil]
    · have hidx9 : ((ProcessMouseInput e ⟨0, p.1, p.2, 0⟩).1).HistoryIndex =
          e.HistoryIndex + 1 := by
        rw [hIdx']; omega
      have h2' : ((ProcessMouseInput e ⟨0, p.1, p.2, 0⟩).1).HistoryIndex + rest.length ≤ 10 := by
        rw [hidx9]; simp only [List.length_cons] at h2; omega
      obtain ⟨c1, c2, c3, c4, c5⟩ := ih ((ProcessMouseInput e ⟨0, p.1, p.2, 0⟩).1)
        hA' hI' hLen' (by omega) (by rw [hidx9]; simp only [List.length_cons] at h2; omega) h2'
      refine ⟨c1, c2, c3, ?_, by rw [c5, hSlot']⟩
      rw [c4, hidx9]
      simp only [List.length_cons]
      omega

/-- Claim C7: on every filtered write, the raw pre-filter X/Y are written into
the 10-slot history ring at the current index, the index advances modulo 10,
the ring is zero-filled on first use; consequently, starting from a freshly
activated device, 10 writes return the index to slot 0 and the 11th write
overwrites slot 0 (which held the first write). -/
theorem C7_history_ring (ext : FILTER_EXTENSION) (b : ℕ) (x y w : ℤ)
    (h : ext.FilterActive = true) :
    ((ProcessMouseInput ext ⟨b, x, y, w⟩).1.XHistory =
      (if ext.HistoryInitialized then ext.XHistory else List.replicate 10 0).set
        ext.HistoryIndex x) ∧
    ((ProcessMouseInput ext ⟨b, x, y, w⟩).1.YHistory =
      (if ext.HistoryInitialized then ext.YHistory else List.replicate 10 0).set
        ext.HistoryIndex y) ∧
    ((ProcessMouseInput ext ⟨b, x, y, w⟩).1.HistoryIndex = (ext.HistoryIndex + 1) % 10) ∧
    ((ProcessMouseInput ext ⟨b, x, y, w⟩).1.HistoryInitialized = true) ∧
    (∀ ps : List (ℤ × ℤ), ps.length = 11 →
      (writeSeq activeInit (ps.take 10)).HistoryIndex = 0 ∧
      (writeSeq activeInit (ps.take 10)).XHistory.getD 0 0 = (ps.headD (0, 0)).1 ∧
      (writeSeq activeInit ps).XHistory.getD 0 0 = (ps.getD 10 (0, 0)).1) := by
  refine ⟨PMI_active_XHistory ext ⟨b, x, y, w⟩ h, PMI_active_YHistory ext ⟨b, x, y, w⟩ h,
    PMI_active_HistoryIndex ext ⟨b, x, y, w⟩ h, PMI_active_HistoryInitialized ext ⟨b, x, y, w⟩ h,
    ?_⟩
  intro ps hps
  rcases ps with _ | ⟨p0, ps⟩
  · simp at hps
  rcases ps with _ | ⟨p1, ps⟩
  · simp at hps
  rcases ps with _ | ⟨p2, ps⟩
  · simp at hps
  rcases ps with _ | ⟨p3, ps⟩
  · simp at hps
  rcases ps with _ | ⟨p4, ps⟩
  · simp at hps
  rcases ps with _ | ⟨p5, ps⟩
  · simp at hps
  rcases ps with _ | ⟨p6, ps⟩
  · simp at hps
  rcases ps with _ | ⟨p7, ps⟩
  · simp at hps
  rcases ps with _ | ⟨p8, ps⟩
  · simp at hps
  rcases ps with _ | ⟨p9, ps⟩
  · simp at hps
  rcases ps with _ | ⟨p10, ps⟩
  · simp at hps
  have hnil : ps = [] := by
    have hl : ps.length = 0 := by
      simp only [List.length_cons] at hps; omega
    exact List.eq_nil_of_length_eq_zero hl
  subst hnil
  -- facts about the state after the first write
  have hA0 : activeInit.FilterActive = true := rfl
  have hA1 : ((ProcessMouseInput activeInit ⟨0, p0.1, p0.2, 0⟩).1).FilterActive = true := by
    rw [PMI_FilterActive]
    exact hA0
  have hI1 := PMI_active_HistoryInitialized activeInit ⟨0, p0.1, p0.2, 0⟩ hA0
  have hIdx1 : ((ProcessMouseInput activeInit ⟨0, p0.1, p0.2, 0⟩).1).HistoryIndex = 1 := by
    rw [PMI_active_HistoryIndex activeInit _ hA0]
    rfl
  have hLen1 : ((ProcessMouseInput activeInit ⟨0, p0.1, p0.2, 0⟩).1).XHistory.length = 10 := by
    rw [PMI_active_XHistory activeInit _ hA0, List.length_set]
    rfl
  have hSlot1 : ((ProcessMouseInput activeInit ⟨0, p0.1, p0.2, 0⟩).1).XHistory.getD 0 0 =
      p0.1 := by
    rw [PMI_active_XHistory activeInit _ hA0]
    rw [show (if activeInit.HistoryInitialized then activeInit.XHistory
      else List.replicate 10 0) = List.replicate 10 0 from rfl]
    rw [show activeInit.HistoryIndex = 0 from rfl]
    rw [List.getD_eq_getElem?_getD, List.getElem?_set_eq_of_lt _ (by simp)]
    rfl
  -- the middle nine writes
  obtain ⟨m1, m2, m3, m4, m5⟩ := writeSeq_stats [p1, p2, p3, p4, p5, p6, p7, p8, p9]
    ((ProcessMouseInput activeInit ⟨0, p0.1, p0.2, 0⟩).1) hA1 hI1 hLen1
    (by omega) (by omega) (by simp only [List.length_cons, List.length_nil]; omega)
  have htake : (p0 :: p1 :: p2 :: p3 :: p4 :: p5 :: p6 :: p7 :: p8 :: p9 :: p10 :: []).take 10 =
      [p0, p1, p2, p3, p4, p5, p6, p7, p8, p9] := rfl
  have hsplit : writeSeq activeInit [p0, p1, p2, p3, p4, p5, p6, p7, p8, p9] =
      writeSeq ((ProcessMouseInput activeInit ⟨0, p0.1, p0.2, 0⟩).1)
        [p1, p2, p3, p4, p5, p6, p7, p8, p9] := by
    simp only [writeSeq, List.foldl_cons]
  refine ⟨?_, ?_, ?_⟩
  · rw [htake, hsplit, m4, hIdx1]
    simp
  · rw [htake, hsplit, m5, hSlot1]
    rfl
  · -- the eleventh write lands on index (1 + 9) % 10 = 0 and overwrites slot 0
    have hsplit2 : writeSeq activeInit
        (p0 :: p1 :: p2 :: p3 :: p4 :: p5 :: p6 :: p7 :: p8 :: p9 :: p10 :: []) =
      (ProcessMouseInput (writeSeq ((ProcessMouseInput activeInit ⟨0, p0.1, p0.2, 0⟩).1)
        [p1, p2, p3, p4, p5, p6, p7, p8, p9]) ⟨0, p10.1, p10.2, 0⟩).1 := by
      simp only [writeSeq, List.foldl_cons, List.foldl_nil]
    rw [hsplit2]
    have hidx0 : (writeSeq ((ProcessMouseInput activeInit ⟨0, p0.1, p0.2, 0⟩).1)
        [p1, p2, p3, p4, p5, p6, p7, p8, p9]).HistoryIndex = 0 := by
      rw [m4, hIdx1]
      simp
    rw [PMI_active_XHistory _ _ m1, if_pos m2, hidx0]
    rw [List.getD_eq_getElem?_getD, List.getElem?_set_eq_of_lt _ (by rw [m3]; omega)]
    rfl

theorem C7_history_ring_witness :
    activeInit.FilterActive = true ∧
      (ProcessMouseInput activeInit ⟨0, 7, 8, 0⟩).1.XHistory =
        (if activeInit.HistoryInitialized then activeInit.XHistory
          else List.replicate 10 0).set activeInit.HistoryIndex 7 :=
  ⟨rfl, (C7_history_ring activeInit 0 7 8 0 rfl).1⟩

/-- Claim C5 failing input: with SmoothingFactor=50 and FilteringStrength=50
(window 6) and six most-recent raw samples of −20, the claimed integer mean is
−20, but the driver divides the negative LONG sum as a ULONG and, after the
clamp, emits 127. -/
theorem C5_unsigned_division_bug :
    (ProcessMouseInput
      { deviceAddInit with
        FilterActive := true
        XHistory := List.replicate 10 (-20)
        YHistory := List.replicate 10 (-20)
        HistoryInitialized := true }
      ⟨0, -20, -20, 0⟩).2.X = 127 ∧
    clampChar (Int.tdiv (6 * (-20)) 6) = -20 := by
  constructor <;> decide

/-- Claim C4 counterexample: SmoothingFactor=76, LastXOutput=−123, input
X=−123.  The specification formula (real arithmetic, truncated toward zero,
clamped) yields −123, the driver float path yields −122. -/
theorem C4_exponential_counterexample :
    (ProcessMouseInput
      { deviceAddInit with FilterActive := true, SmoothingFactor := 76, LastXOutput := -123 }
      ⟨0, -123, 0, 0⟩).2.X = -122 ∧
    clampChar (rtrunc (blendSpec (alphaExpoSpec 76) (-123) (-123))) = -123 := by
  constructor <;> decide

/-- Claim C4 as amended: whenever the Exponential algorithm runs with its
state in the reachable ranges, each axis output is within 1 of the
specification formula alpha·input + (1−alpha)·lastOutput (alpha =
clamp((100−smoothingFactor)/100, 0.01, 1.0)) truncated toward zero and
clamped to [−128,127] — the driver computes in binary32 floats, which can
shift the truncation by one; the clamped result is stored as the new
lastOutput per axis, outputs lie in [−128,127], and the spec instance
smoothingFactor=90, lastOutputX=0, input X=100 gives output X=10 exactly. -/
theorem C4_exponential_amended (ext : FILTER_EXTENSION) (x y : ℤ)
    (h75 : 75 < ext.SmoothingFactor) (h100 : ext.SmoothingFactor ≤ 100)
    (hx1 : -128 ≤ x) (hx2 : x ≤ 127) (hy1 : -128 ≤ y) (hy2 : y ≤ 127)
    (hlx1 : -128 ≤ ext.LastXOutput) (hlx2 : ext.LastXOutput ≤ 127)
    (hly1 : -128 ≤ ext.LastYOutput) (hly2 : ext.LastYOutput ≤ 127) :
    (|(ApplyExponentialSmoothing ext x y).2.1 - clampChar (rtrunc
        (blendSpec (alphaExpoSpec ext.SmoothingFactor) x ext.LastXOutput))| ≤ 1) ∧
    (|(ApplyExponentialSmoothing ext x y).2.2 - clampChar (rtrunc
        (blendSpec (alphaExpoSpec ext.SmoothingFactor) y ext.LastYOutput))| ≤ 1) ∧
    ((ApplyExponentialSmoothing ext x y).1 =
      { ext with LastXOutput := (ApplyExponentialSmoothing ext x y).2.1,
                 LastYOutput := (ApplyExponentialSmoothing ext x y).2.2 }) ∧
    (-128 ≤ (ApplyExponentialSmoothing ext x y).2.1 ∧
      (ApplyExponentialSmoothing ext x y).2.1 ≤ 127) ∧
    (-128 ≤ (ApplyExponentialSmoothing ext x y).2.2 ∧
      (ApplyExponentialSmoothing ext x y).2.2 ≤ 127) ∧
    (ProcessMouseInput { deviceAddInit with FilterActive := true, SmoothingFactor := 90 }
      ⟨0, 100, 0, 0⟩).2.X = 10 := by
  obtain ⟨hd, ha, haS⟩ := alphaExpo_err ext.SmoothingFactor h75 h100
  have hxq : |(x:ℚ)| ≤ 128 := by
    rw [abs_le]
    constructor <;> [exact_mod_cast hx1; exact_mod_cast (by omega : x ≤ 128)]
  have hyq : |(y:ℚ)| ≤ 128 := by
    rw [abs_le]
    constructor <;> [exact_mod_cast hy1; exact_mod_cast (by omega : y ≤ 128)]
  have hlxq : |((ext.LastXOutput:ℤ):ℚ)| ≤ 128 := by
    rw [abs_le]
    constructor <;> [exact_mod_cast hlx1; exact_mod_cast (by omega : ext.LastXOutput ≤ 128)]
  have hlyq : |((ext.LastYOutput:ℤ):ℚ)| ≤ 128 := by
    rw [abs_le]
    constructor <;> [exact_mod_cast hly1; exact_mod_cast (by omega : ext.LastYOutput ≤ 128)]
  have hbx := blendF32_err (alphaExpo ext.SmoothingFactor) (alphaExpoSpec ext.SmoothingFactor)
    x ext.LastXOutput hd ha haS hxq hlxq
  have hby := blendF32_err (alphaExpo ext.SmoothingFactor) (alphaExpoSpec ext.SmoothingFactor)
    y ext.LastYOutput hd ha haS hyq hlyq
  have keyX : (ApplyExponentialSmoothing ext x y).2.1 =
      clampChar (rtrunc (blendF32 (alphaExpo ext.SmoothingFactor) x ext.LastXOutput)) := rfl
  have keyY : (ApplyExponentialSmoothing ext x y).2.2 =
      clampChar (rtrunc (blendF32 (alphaExpo ext.SmoothingFactor) y ext.LastYOutput)) := rfl
  refine ⟨?_, ?_, rfl, ?_, ?_, by decide⟩
  · rw [keyX]
    exact clampChar_within _ _ (rtrunc_within _ _ (by linarith))
  · rw [keyY]
    exact clampChar_within _ _ (rtrunc_within _ _ (by linarith))
  · rw [keyX]
    exact clampChar_mem _
  · rw [keyY]
    exact clampChar_mem _

theorem C4_exponential_amended_witness :
    (75 < (90:ℤ) ∧ (90:ℤ) ≤ 100) ∧
      |(ApplyExponentialSmoothing
          { deviceAddInit with FilterActive := true, SmoothingFactor := 90 } 100 0).2.1 -
        clampChar (rtrunc (blendSpec
          (alphaExpoSpec ({ deviceAddInit with FilterActive := true, SmoothingFactor := 90 } : FILTER_EXTENSION).SmoothingFactor)
          100
          ({ deviceAddInit with FilterActive := true, SmoothingFactor := 90 } : FILTER_EXTENSION).LastXOutput))| ≤ 1 :=
  ⟨⟨by decide, by decide⟩,
   (C4_exponential_amended { deviceAddInit with FilterActive := true, SmoothingFactor := 90 }
      100 0 (by decide) (by decide) (by decide) (by decide) (by decide) (by decide)
      (by decide) (by decide) (by decide) (by decide)).1⟩

/-- Claim C6 counterexample: SmoothingFactor=10 (adaptive), ResponseSpeed=0,
LastXOutput=92, input X=−128, Y=−128 (velocity 256).  The specification
formula yields −106, the driver float path yields −105. -/
theorem C6_adaptive_counterexample :
    (ProcessMouseInput
      { deviceAddInit with
        FilterActive := true
        SmoothingFactor := 10
        ResponseSpeed := 0
        LastXOutput := 92 }
      ⟨0, -128, -128, 0⟩).2.X = -105 ∧
    clampChar (rtrunc (blendSpec (alphaAdaptiveSpec 0 256) (-128) 92)) = -106 := by
  constructor <;> decide

/-- Claim C6 as amended: whenever the Adaptive algorithm runs with its state
in the reachable ranges, each axis output is within 1 of the specification
formula with alpha = clamp(baseAlpha + (1−baseAlpha)·velocityFactor, 0.1, 0.9),
baseAlpha = responseSpeed/100, velocityFactor = clamp((|rawX|+|rawY|)/20, 0, 1),
truncated toward zero and clamped to [−128,127] — the driver computes in
binary32 floats, which can shift the truncation by one; the clamped result is
stored as lastOutput per axis, outputs lie in [−128,127], and responseSpeed=100
forces alpha to clamp to the binary32 value of 0.9 for every velocity. -/
theorem C6_adaptive_amended (ext : FILTER_EXTENSION) (x y : ℤ)
    (hr0 : 0 ≤ ext.ResponseSpeed) (hr100 : ext.ResponseSpeed ≤ 100)
    (hx1 : -128 ≤ x) (hx2 : x ≤ 127) (hy1 : -128 ≤ y) (hy2 : y ≤ 127)
    (hlx1 : -128 ≤ ext.LastXOutput) (hlx2 : ext.LastXOutput ≤ 127)
    (hly1 : -128 ≤ ext.LastYOutput) (hly2 : ext.LastYOutput ≤ 127) :
    (|(ApplyAdaptiveFiltering ext x y).2.1 - clampChar (rtrunc (blendSpec
        (alphaAdaptiveSpec ext.ResponseSpeed (|x| + |y|)) x ext.LastXOutput))| ≤ 1) ∧
    (|(ApplyAdaptiveFiltering ext x y).2.2 - clampChar (rtrunc (blendSpec
        (alphaAdaptiveSpec ext.ResponseSpeed (|x| + |y|)) y ext.LastYOutput))| ≤ 1) ∧
    ((ApplyAdaptiveFiltering ext x y).1 =
      { ext with LastXOutput := (ApplyAdaptiveFiltering ext x y).2.1,
                 LastYOutput := (ApplyAdaptiveFiltering ext x y).2.2 }) ∧
    (-128 ≤ (ApplyAdaptiveFiltering ext x y).2.1 ∧
      (ApplyAdaptiveFiltering ext x y).2.1 ≤ 127) ∧
    (-128 ≤ (ApplyAdaptiveFiltering ext x y).2.2 ∧
      (ApplyAdaptiveFiltering ext x y).2.2 ≤ 127) ∧
    (ext.ResponseSpeed = 100 →
      alphaAdaptive ext.ResponseSpeed (|x| + |y|) = roundF32 (9/10)) := by
  have habsx : |x| ≤ 128 := abs_le.mpr ⟨hx1, by omega⟩
  have habsy : |y| ≤ 128 := abs_le.mpr ⟨hy1, by omega⟩
  have hvel0 : 0 ≤ |x| + |y| := add_nonneg (abs_nonneg x) (abs_nonneg y)
  have hvel256 : |x| + |y| ≤ 256 := by linarith
  obtain ⟨hd, ha, haS⟩ := alphaAdaptive_err ext.ResponseSpeed (|x| + |y|)
    hr0 hr100 hvel0 hvel256
  have hxq : |(x:ℚ)| ≤ 128 := by
    rw [abs_le]
    constructor <;> [exact_mod_cast hx1; exact_mod_cast (by omega : x ≤ 128)]
  have hyq : |(y:ℚ)| ≤ 128 := by
    rw [abs_le]
    constructor <;> [exact_mod_cast hy1; exact_mod_cast (by omega : y ≤ 128)]
  have hlxq : |((ext.LastXOutput:ℤ):ℚ)| ≤ 128 := by
    rw [abs_le]
    constructor <;> [exact_mod_cast hlx1; exact_mod_cast (by omega : ext.LastXOutput ≤ 128)]
  have hlyq : |((ext.LastYOutput:ℤ):ℚ)| ≤ 128 := by
    rw [abs_le]
    constructor <;> [exact_mod_cast hly1; exact_mod_cast (by omega : ext.LastYOutput ≤ 128)]
  have hbx := blendF32_err (alphaAdaptive ext.ResponseSpeed (|x| + |y|))
    (alphaAdaptiveSpec ext.ResponseSpeed (|x| + |y|)) x ext.LastXOutput hd ha haS hxq hlxq
  have hby := blendF32_err (alphaAdaptive ext.ResponseSpeed (|x| + |y|))
    (alphaAdaptiveSpec ext.ResponseSpeed (|x| + |y|)) y ext.LastYOutput hd ha haS hyq hlyq
  have keyX : (ApplyAdaptiveFiltering ext x y).2.1 = clampChar (rtrunc
      (blendF32 (alphaAdaptive ext.ResponseSpeed (|x| + |y|)) x ext.LastXOutput)) := rfl
  have keyY : (ApplyAdaptiveFiltering ext x y).2.2 = clampChar (rtrunc
      (blendF32 (alphaAdaptive ext.ResponseSpeed (|x| + |y|)) y ext.LastYOutput)) := rfl
  refine ⟨?_, ?_, rfl, ?_, ?_, ?_⟩
  · rw [keyX]
    exact clampChar_within _ _ (rtrunc_within _ _ (by linarith))
  · rw [keyY]
    exact clampChar_within _ _ (rtrunc_within _ _ (by linarith))
  · rw [keyX]
    exact clampChar_mem _
  · rw [keyY]
    exact clampChar_mem _
  · intro hr
    rw [hr]
    have hbase : roundF32 (i2f 100 / 100) = 1 := by decide
    simp only [alphaAdaptive, hbase, sub_self, roundF32_zero, zero_mul, add_zero]
    have hone : roundF32 (1:ℚ) = 1 := by decide
    rw [hone]
    rw [min_eq_left (by decide : roundF32 ((9:ℚ)/10) ≤ 1)]
    rw [max_eq_right (by decide : roundF32 ((1:ℚ)/10) ≤ roundF32 ((9:ℚ)/10))]

theorem C6_adaptive_amended_witness :
    (0 ≤ (100:ℤ) ∧ (100:ℤ) ≤ 100) ∧
      alphaAdaptive
        ({ deviceAddInit with FilterActive := true, SmoothingFactor := 10, ResponseSpeed := 100 } : FILTER_EXTENSION).ResponseSpeed
        (|(30:ℤ)| + |(40:ℤ)|) = roundF32 (9/10) :=
  ⟨⟨by decide, by decide⟩,
   (C6_adaptive_amended
      { deviceAddInit with FilterActive := true, SmoothingFactor := 10, ResponseSpeed := 100 }
      30 40 (by decide) (by decide) (by decide) (by decide) (by decide) (by decide)
      (by decide) (by decide) (by decide) (by decide)).2.2.2.2.2 rfl⟩

end ClaimProofs

end HidFilter
